import Mathlib

/-!
# VS1063 driver: bus-level model

A shallow embedding of `src/VS1063.cpp`.  The driver talks to the codec through
four pins and the SPI peripheral; every Arduino call the source makes is a
primitive of the model that appends one `Event` to a trace and lets the
hardware (`Chip`) react.  Machine integers are `Nat` with explicit wrap-around.
Busy-wait and parsing loops that the source does not bound take `fuel`.
-/

namespace VS1063

/-! ## Hardware -/

/-- The four pins held by the driver object (`_xcs`, `_xdcs`, `_dreq`, `_reset`),
taken to be four different pins. -/
inductive Line where
  | xcs
  | xdcs
  | dreq
  | reset
  deriving DecidableEq, Repr

/-- One Arduino call observable on the bus.  `digitalRead` carries the level that
was sampled on `_dreq`, `transfer` the byte shifted out. -/
inductive Event where
  | pinMode (l : Line) (output : Bool)
  | digitalWrite (l : Line) (level : Bool)
  | digitalRead (level : Bool)
  | transfer (out : Nat)
  | delay (ms : Nat)
  | delayMicroseconds (us : Nat)
  | spiBegin
  | spiSetDataMode
  | spiSetBitOrder
  deriving DecidableEq, Repr

/-- The codec as seen from the pins: how a sample of the ready line, an SPI
byte exchange and a driven output line act on its state `σ`. -/
structure Chip (σ : Type) where
  read : σ → Bool × σ
  transfer : σ → Nat → Nat × σ
  write : σ → Line → Bool → σ

/-- Addresses of the control registers.  The source uses the names `SCI_MODE`,
`SCI_VOL`, ... without defining them, so they are parameters of the model. -/
structure RegMap where
  SCI_MODE : Nat
  SCI_BASS : Nat
  SCI_CLOCKF : Nat
  SCI_DECODE_TIME : Nat
  SCI_AUDATA : Nat
  SCI_WRAM : Nat
  SCI_WRAMADDR : Nat
  SCI_HDAT0 : Nat
  SCI_HDAT1 : Nat
  SCI_AIADDR : Nat
  SCI_VOL : Nat

/-- Driver object together with the hardware it is attached to. -/
structure Dev (σ : Type) where
  chip : σ
  trace : List Event
  isRecording : Bool
  isPlaying : Bool

/-- Ways a run of the model stops without returning. -/
inductive Fault where
  | outOfFuel
  | outOfBounds
  deriving DecidableEq, Repr

/-- Computations of the driver: state passing over `Dev`, the state reached is
kept when a fault stops the run. -/
def M (σ : Type) (α : Type) : Type := Dev σ → Except Fault α × Dev σ

/-- Sequencing of driver computations. -/
def M.bind {σ α β : Type} (m : M σ α) (f : α → M σ β) : M σ β := fun d =>
  match m d with
  | (Except.ok a, d1) => f a d1
  | (Except.error e, d1) => (Except.error e, d1)

/-- A computation that returns at once. -/
def M.pure {σ α : Type} (a : α) : M σ α := fun d => (Except.ok a, d)

instance instMonadM {σ : Type} : Monad (M σ) where
  pure := M.pure
  bind := M.bind

/-- A computation that stops with a fault. -/
def fault {σ α : Type} (e : Fault) : M σ α := fun d => (Except.error e, d)

/-- Element `i` of a caller-supplied array; reading past its end is a fault. -/
def index {σ α : Type} (xs : List α) (i : Nat) : M σ α :=
  match xs[i]? with
  | some x => M.pure x
  | none => fault Fault.outOfBounds

section Driver

variable {σ : Type} (hw : Chip σ) (R : RegMap) (fuel : Nat)

/-! ## Arduino primitives -/

/-- Arduino `pinMode`. -/
def pinMode (l : Line) (output : Bool) : M σ Unit := fun d =>
  (Except.ok (), { d with trace := d.trace ++ [Event.pinMode l output] })

/-- Arduino `digitalWrite`. -/
def digitalWrite (l : Line) (level : Bool) : M σ Unit := fun d =>
  (Except.ok (), { d with chip := hw.write d.chip l level,
                          trace := d.trace ++ [Event.digitalWrite l level] })

/-- Arduino `digitalRead(_dreq)`. -/
def digitalRead : M σ Bool := fun d =>
  (Except.ok (hw.read d.chip).1,
    { d with chip := (hw.read d.chip).2,
             trace := d.trace ++ [Event.digitalRead (hw.read d.chip).1] })

/-- Arduino `SPI.transfer`; the byte clocked in is a `uint8_t`. -/
def transfer (out : Nat) : M σ Nat := fun d =>
  (Except.ok ((hw.transfer d.chip out).1 % 256),
    { d with chip := (hw.transfer d.chip out).2,
             trace := d.trace ++ [Event.transfer out] })

/-- Arduino `delay`. -/
def delay (ms : Nat) : M σ Unit := fun d =>
  (Except.ok (), { d with trace := d.trace ++ [Event.delay ms] })

/-- Arduino `delayMicroseconds`. -/
def delayMicroseconds (us : Nat) : M σ Unit := fun d =>
  (Except.ok (), { d with trace := d.trace ++ [Event.delayMicroseconds us] })

/-- The three SPI set-up calls of `begin`. -/
def spiSetup : M σ Unit := fun d =>
  (Except.ok (), { d with trace := d.trace ++
    [Event.spiBegin, Event.spiSetDataMode, Event.spiSetBitOrder] })

/-- Assignment to `_isPlaying`. -/
def setPlaying (b : Bool) : M σ Unit := fun d => (Except.ok (), { d with isPlaying := b })

/-- Assignment to `_isRecording`. -/
def setRecording (b : Bool) : M σ Unit := fun d => (Except.ok (), { d with isRecording := b })

/-- Read of `_isRecording`. -/
def getRecording : M σ Bool := fun d => (Except.ok d.isRecording, d)

/-! ## Private functions (source lines 299-341) -/

/-- `waitForDreq`: poll the ready line, 10 microseconds apart, until it reads
HIGH.  `fuel` bounds the number of polls. -/
def waitForDreq : Nat → M σ Unit
  | 0 => fault Fault.outOfFuel
  | n + 1 => do
    let level ← digitalRead hw
    if level = false then
      delayMicroseconds 10
      waitForDreq n
    else
      pure ()

/-- `writeSCI(reg, value)`. -/
def writeSCI (reg value : Nat) : M σ Unit := do
  waitForDreq hw fuel
  digitalWrite hw Line.xcs false
  let _ ← transfer hw 0x02
  let _ ← transfer hw reg
  let _ ← transfer hw ((value >>> 8) &&& 0xFF)
  let _ ← transfer hw (value &&& 0xFF)
  digitalWrite hw Line.xcs true

/-- `readSCI(reg)`; the result is a `uint16_t`. -/
def readSCI (reg : Nat) : M σ Nat := do
  waitForDreq hw fuel
  digitalWrite hw Line.xcs false
  let _ ← transfer hw 0x03
  let _ ← transfer hw reg
  let hi ← transfer hw 0xFF
  let lo ← transfer hw 0xFF
  digitalWrite hw Line.xcs true
  pure (((hi <<< 8) % 65536) ||| lo)

/-- `writeSDI(data)`. -/
def writeSDI (data : Nat) : M σ Unit := do
  waitForDreq hw fuel
  digitalWrite hw Line.xdcs false
  let _ ← transfer hw data
  digitalWrite hw Line.xdcs true

/-- `writeRAM(addr, data)`. -/
def writeRAM (addr data : Nat) : M σ Unit := do
  writeSCI hw fuel R.SCI_WRAMADDR addr
  writeSCI hw fuel R.SCI_WRAM data

/-- `readRAM(addr)`. -/
def readRAM (addr : Nat) : M σ Nat := do
  writeSCI hw fuel R.SCI_WRAMADDR addr
  readSCI hw fuel R.SCI_WRAM

/-! ## Public functions (source lines 8-296) -/

/-- The 16-bit word `m` with the bits of `mask` cleared: C `m & ~mask` stored
in a `uint16_t`. -/
def clearBits (m mask : Nat) : Nat := m &&& (0xFFFF ^^^ mask)

/-- `hardReset`. -/
def hardReset : M σ Unit := do
  digitalWrite hw Line.reset false
  delay 10
  digitalWrite hw Line.reset true
  delay 100
  setPlaying false
  setRecording false

/-- `softReset`. -/
def softReset : M σ Unit := do
  let m ← readSCI hw fuel R.SCI_MODE
  writeSCI hw fuel R.SCI_MODE (m ||| 0x0004)
  delay 10
  let m2 ← readSCI hw fuel R.SCI_MODE
  writeSCI hw fuel R.SCI_MODE (clearBits m2 0x0004)
  delay 100
  setPlaying false
  setRecording false

/-- `isReady`. -/
def isReady : M σ Bool := digitalRead hw

/-- `startPlayback`. -/
def startPlayback : M σ Unit := do
  let m ← readSCI hw fuel R.SCI_MODE
  writeSCI hw fuel R.SCI_MODE (m ||| 0x0800)
  setPlaying true

/-- `stopPlayback`. -/
def stopPlayback : M σ Unit := do
  let m ← readSCI hw fuel R.SCI_MODE
  writeSCI hw fuel R.SCI_MODE (clearBits m 0x0800)
  setPlaying false

/-- `pausePlayback(pause)`. -/
def pausePlayback (pause : Bool) : M σ Unit := do
  if pause then
    let m ← readSCI hw fuel R.SCI_MODE
    writeSCI hw fuel R.SCI_MODE (m ||| 0x0008)
  else
    let m ← readSCI hw fuel R.SCI_MODE
    writeSCI hw fuel R.SCI_MODE (clearBits m 0x0008)

/-- `setVolume(left, right)`. -/
def setVolume (left right : Nat) : M σ Unit :=
  writeSCI hw fuel R.SCI_VOL (((left <<< 8) % 65536) ||| right)

/-- `getDecodeTime`. -/
def getDecodeTime : M σ Nat := readSCI hw fuel R.SCI_DECODE_TIME

/-- The enumeration `RecordFormat` of the header. -/
inductive RecordFormat where
  | REC_MP3
  | REC_OGG
  | REC_PCM
  | REC_ADPCM
  | REC_G711_ULAW
  | REC_G711_ALAW
  | REC_G722
  deriving DecidableEq, Repr

/-- The bits the `switch` of `startRecording` ors into the mode word. -/
def formatBits : RecordFormat → Nat
  | RecordFormat.REC_MP3 => 0x1000
  | RecordFormat.REC_OGG => 0x1000
  | RecordFormat.REC_ADPCM => 0x0400
  | RecordFormat.REC_G711_ULAW => 0x1400
  | RecordFormat.REC_G711_ALAW => 0x2400
  | RecordFormat.REC_G722 => 0x3400
  | RecordFormat.REC_PCM => 0

/-- The mode word `startRecording` computes from the word it read. -/
def recordMode (m : Nat) (format : RecordFormat) : Nat :=
  ((clearBits m 0x5400) ||| 0x4000) ||| formatBits format

/-- `startRecording(format, sampleRate)`. -/
def startRecording (format : RecordFormat) (sampleRate : Nat) : M σ Unit := do
  let m ← readSCI hw fuel R.SCI_MODE
  writeSCI hw fuel R.SCI_MODE (recordMode m format)
  writeSCI hw fuel R.SCI_AUDATA ((sampleRate >>> 16) &&& 0xFF)
  writeSCI hw fuel R.SCI_AUDATA (sampleRate &&& 0xFFFF)
  setRecording true

/-- `stopRecording`. -/
def stopRecording : M σ Unit := do
  let m ← readSCI hw fuel R.SCI_MODE
  writeSCI hw fuel R.SCI_MODE (clearBits m 0x4000)
  setRecording false

/-- `isRecording`. -/
def isRecording : M σ Bool := getRecording

/-- The loop shared by `readData` and `getRecordingData`:
`for (i = 0; i < len && isReady(); i++) buf[i] = SPI.transfer(0x00);`.
The first argument counts `len - i`; a store past the end of the caller's
buffer is a fault. -/
def readLoop : Nat → Nat → List Nat → M σ (Nat × List Nat)
  | 0, i, buf => pure (i, buf)
  | n + 1, i, buf => do
    let ready ← isReady hw
    if ready then
      let b ← transfer hw 0x00
      if i < buf.length then
        readLoop n (i + 1) (buf.set i b)
      else
        fault Fault.outOfBounds
    else
      pure (i, buf)

/-- `getRecordingData(buf, len)`: the count returned and the buffer left. -/
def getRecordingData (buf : List Nat) (len : Nat) : M σ (Nat × List Nat) := do
  let rec_ ← getRecording
  if rec_ = false then
    pure (0, buf)
  else
    let ready ← isReady hw
    if ready = false then
      pure (0, buf)
    else
      digitalWrite hw Line.xdcs false
      let r ← readLoop hw len 0 buf
      digitalWrite hw Line.xdcs true
      pure r

/-- `setBass(bassBoost, freqLimit)`. -/
def setBass (bassBoost freqLimit : Nat) : M σ Unit :=
  writeSCI hw fuel R.SCI_BASS (((bassBoost <<< 8) ||| (freqLimit <<< 4)) % 65536)

/-- `setTreble(trebleBoost, freqLimit)`. -/
def setTreble (trebleBoost freqLimit : Nat) : M σ Unit := do
  let b ← readSCI hw fuel R.SCI_BASS
  writeSCI hw fuel R.SCI_BASS
    ((b &&& 0x00FF) ||| (((trebleBoost <<< 8) ||| (freqLimit <<< 4)) % 65536))

/-- The argument `(uint16_t)g + 15` of `setEqualizer5Band`, for an `int8_t` g. -/
def eqGain (g : Int) : Nat := (((g % 65536) + 15) % 65536).toNat

/-- `setEqualizer5Band(gains)`. -/
def setEqualizer5Band (gains : List Int) : M σ Unit := do
  let g0 ← index gains 0
  writeRAM hw R fuel 0x1E40 (eqGain g0)
  let g1 ← index gains 1
  writeRAM hw R fuel 0x1E41 (eqGain g1)
  let g2 ← index gains 2
  writeRAM hw R fuel 0x1E42 (eqGain g2)
  let g3 ← index gains 3
  writeRAM hw R fuel 0x1E43 (eqGain g3)
  let g4 ← index gains 4
  writeRAM hw R fuel 0x1E44 (eqGain g4)
  let m ← readSCI hw fuel R.SCI_MODE
  writeSCI hw fuel R.SCI_MODE (m ||| 0x0020)

/-- `setEarSpeaker(enable)`. -/
def setEarSpeaker (enable : Bool) : M σ Unit :=
  if enable then writeRAM hw R fuel 0x1E09 0x0001 else writeRAM hw R fuel 0x1E09 0x0000

/-- Wrap-around of a 32-bit signed `long`. -/
def wrapLong (x : Int) : Int := (x + 2147483648) % 4294967296 - 2147483648

/-- Modelled from the spec: the Arduino core function `map`, which `setSpeed`
calls and which is not part of src/.  The spec has it map the input range
linearly onto the output range with 125 going to 32767, that is
`(x - in_min) * (out_max - out_min) / (in_max - in_min) + out_min` in `long`
arithmetic with the quotient truncated. -/
def map (x in_min in_max out_min out_max : Int) : Int :=
  wrapLong (Int.tdiv (wrapLong (wrapLong (x - in_min) * wrapLong (out_max - out_min)))
    (wrapLong (in_max - in_min)) + out_min)

/-- The `uint16_t speed` of `setSpeed`. -/
def speedValue (percent : Nat) : Nat := (map percent 50 200 0 65535 % 65536).toNat

/-- `setSpeed(percent)`. -/
def setSpeed (percent : Nat) : M σ Unit := do
  writeRAM hw R fuel 0x1E07 (speedValue percent)
  writeRAM hw R fuel 0x1E08 0x0001

/-- `setADMixer(gain)`. -/
def setADMixer (gain : Nat) : M σ Unit := do
  writeRAM hw R fuel 0x1E05 (gain &&& 0x07)
  writeRAM hw R fuel 0x1E06 0x0001

/-- `setPCMMixer(volume)`. -/
def setPCMMixer (volume : Nat) : M σ Unit := do
  writeRAM hw R fuel 0x1E03 volume
  writeRAM hw R fuel 0x1E04 0x0001

/-- The loop of `writeData`; the first argument counts `len - i`. -/
def writeLoop (data : List Nat) : Nat → Nat → M σ Unit
  | 0, _ => pure ()
  | n + 1, i => do
    let b ← index data i
    let _ ← transfer hw b
    writeLoop data n (i + 1)

/-- `writeData(data, len)`. -/
def writeData (data : List Nat) (len : Nat) : M σ Unit := do
  let ready ← isReady hw
  if ready = false then
    pure ()
  else
    digitalWrite hw Line.xdcs false
    writeLoop hw data len 0
    digitalWrite hw Line.xdcs true

/-- `readData(buffer, len)`: the count returned and the buffer left. -/
def readData (buffer : List Nat) (len : Nat) : M σ (Nat × List Nat) := do
  let ready ← isReady hw
  if ready = false then
    pure (0, buffer)
  else
    digitalWrite hw Line.xdcs false
    let r ← readLoop hw len 0 buffer
    digitalWrite hw Line.xdcs true
    pure r

/-- The loop `while (n--) writeSCI(SCI_WRAM, val);` of an RLE record. -/
def pluginRun (val : Nat) : Nat → M σ Unit
  | 0 => pure ()
  | n + 1 => do
    writeSCI hw fuel R.SCI_WRAM val
    pluginRun val n

/-- The loop `while (n--) writeSCI(SCI_WRAM, plugin[i++]);` of a literal record;
returns the index reached (a `uint16_t`). -/
def pluginLiteral (plugin : List Nat) : Nat → Nat → M σ Nat
  | 0, i => pure i
  | n + 1, i => do
    let w ← index plugin i
    writeSCI hw fuel R.SCI_WRAM w
    pluginLiteral plugin n ((i + 1) % 65536)

/-- The outer loop `while (i < len)` of `loadPlugin`; the first argument bounds
the number of records processed. -/
def pluginLoop (plugin : List Nat) (len : Nat) : Nat → Nat → M σ Unit
  | 0, _ => fault Fault.outOfFuel
  | k + 1, i =>
    if i < len then do
      let addr ← index plugin i
      let n ← index plugin ((i + 1) % 65536)
      let i2 := (i + 2) % 65536
      if n &&& 0x8000 ≠ 0 then
        let val ← index plugin i2
        writeSCI hw fuel R.SCI_WRAMADDR addr
        pluginRun hw R fuel val (n &&& 0x7FFF)
        pluginLoop plugin len k ((i2 + 1) % 65536)
      else
        writeSCI hw fuel R.SCI_WRAMADDR addr
        let i3 ← pluginLiteral hw R fuel plugin n i2
        pluginLoop plugin len k i3
    else
      pure ()

/-- `loadPlugin(plugin, len)`. -/
def loadPlugin (plugin : List Nat) (len : Nat) : M σ Unit :=
  pluginLoop hw R fuel plugin len fuel 0

/-- `activatePlugin(startAddr)`. -/
def activatePlugin (startAddr : Nat) : M σ Unit :=
  writeSCI hw fuel R.SCI_AIADDR startAddr

/-- `deactivatePlugin`. -/
def deactivatePlugin : M σ Unit :=
  writeSCI hw fuel R.SCI_AIADDR 0

/-- The `for` loop of a data record of `loadApplication`: the first argument
counts the words left, the second is `pos`; returns the `pos` reached. -/
def appWords (image : List Nat) : Nat → Nat → M σ Nat
  | 0, pos => pure pos
  | n + 1, pos => do
    let hi ← index image pos
    let lo ← index image ((pos + 1) % 4294967296)
    writeSCI hw fuel R.SCI_WRAM (((hi <<< 8) ||| lo) % 65536)
    appWords image n ((pos + 2) % 4294967296)

/-- The loop `while (pos < len)` of `loadApplication`; the first argument
bounds the number of records processed. -/
def appLoop (image : List Nat) (len : Nat) : Nat → Nat → M σ Unit
  | 0, _ => fault Fault.outOfFuel
  | k + 1, pos =>
    if pos < len then do
      let type ← index image pos
      let p1 := (pos + 1) % 4294967296
      if type > 3 then
        pure ()
      else
        let l1 ← index image p1
        let l0 ← index image ((p1 + 1) % 4294967296)
        let recLen := ((l1 <<< 8) ||| l0) % 65536
        let p3 := (p1 + 2) % 4294967296
        let a1 ← index image p3
        let a0 ← index image ((p3 + 1) % 4294967296)
        let addr := ((a1 <<< 8) ||| a0) % 65536
        let p5 := (p3 + 2) % 4294967296
        if type = 3 then
          writeSCI hw fuel R.SCI_AIADDR addr
        else
          writeSCI hw fuel R.SCI_WRAMADDR addr
          let p ← appWords hw R fuel image (recLen / 2) p5
          appLoop image len k p
    else
      pure ()

/-- `loadApplication(image, len)`. -/
def loadApplication (image : List Nat) (len : Nat) : M σ Unit := do
  let b0 ← index image 0
  if b0 ≠ 0x50 then
    pure ()
  else
    let b1 ← index image 1
    if b1 ≠ 0x26 then
      pure ()
    else
      let b2 ← index image 2
      if b2 ≠ 0x48 then
        pure ()
      else
        appLoop hw R fuel image len fuel 3

/-- `setClockFrequency(freq)`. -/
def setClockFrequency (freq : Nat) : M σ Unit :=
  if freq ≤ 13000000 then
    writeSCI hw fuel R.SCI_CLOCKF ((0x8000 ||| ((freq / 4000) &&& 0x7FFF)) % 65536)
  else
    writeSCI hw fuel R.SCI_CLOCKF ((0x9000 ||| ((freq / 8000) &&& 0x7FFF)) % 65536)

/-- `setSampleRate(rate)`. -/
def setSampleRate (rate : Nat) : M σ Unit :=
  writeSCI hw fuel R.SCI_AUDATA (rate % 65536)

/-- `setGPIO(pin, state)`. -/
def setGPIO (pin : Nat) (state : Bool) : M σ Unit :=
  if pin > 11 then
    pure ()
  else do
    let gpio ← readSCI hw fuel R.SCI_HDAT0
    if state then
      writeSCI hw fuel R.SCI_HDAT0 (gpio ||| (1 <<< pin))
    else
      writeSCI hw fuel R.SCI_HDAT0 (clearBits gpio (1 <<< pin))

/-- `getGPIO(pin)`. -/
def getGPIO (pin : Nat) : M σ Bool :=
  if pin > 11 then
    pure false
  else do
    let v ← readSCI hw fuel R.SCI_HDAT1
    pure (decide (v &&& (1 <<< pin) ≠ 0))

/-- `readRegister(reg)`. -/
def readRegister (reg : Nat) : M σ Nat := readSCI hw fuel reg

/-- `writeRegister(reg, value)`. -/
def writeRegister (reg value : Nat) : M σ Unit := writeSCI hw fuel reg value

/-- `getChipID`, operands read left to right. -/
def getChipID : M σ Nat := do
  let hi ← readSCI hw fuel R.SCI_HDAT0
  let lo ← readSCI hw fuel R.SCI_HDAT1
  pure ((hi <<< 16) ||| lo)

/-- `begin`. -/
def begin : M σ Unit := do
  pinMode Line.xcs true
  pinMode Line.xdcs true
  pinMode Line.dreq false
  pinMode Line.reset true
  digitalWrite hw Line.xcs true
  digitalWrite hw Line.xdcs true
  digitalWrite hw Line.reset false
  spiSetup
  hardReset hw
  setClockFrequency hw R fuel 12288000
  setVolume hw R fuel 40 40

end Driver

/-! ## Observations on traces -/

/-- Events on the wires to the chip: driven lines and SPI bytes. -/
def isBusEvent : Event → Bool
  | Event.digitalWrite _ _ => true
  | Event.transfer _ => true
  | _ => false

/-- The wire events of a trace, in order. -/
def busEvents (t : List Event) : List Event := t.filter isBusEvent

/-- The wire events of one control-register write of `value` to `reg`. -/
def writeFrame (reg value : Nat) : List Event :=
  [Event.digitalWrite Line.xcs false, Event.transfer 0x02, Event.transfer reg,
   Event.transfer ((value >>> 8) &&& 0xFF), Event.transfer (value &&& 0xFF),
   Event.digitalWrite Line.xcs true]

/-- The wire events of a sequence of control-register writes `(reg, value)`. -/
def writeFrames (ws : List (Nat × Nat)) : List Event :=
  ws.flatMap (fun w => writeFrame w.1 w.2)

/-- The ready line reads HIGH within `n` samples from chip state `s`. -/
def readyWithin {σ : Type} (hw : Chip σ) : Nat → σ → Bool
  | 0, _ => false
  | n + 1, s => (hw.read s).1 || readyWithin hw n (hw.read s).2

/-- Hardware on which no wait for the ready line takes more than `fuel` polls. -/
def Responsive {σ : Type} (hw : Chip σ) (fuel : Nat) : Prop :=
  ∀ s, readyWithin hw fuel s = true

/-- The computation `m` returns `a` from every state, adding exactly the wire
events `ws` to the trace. -/
def Runs {σ α : Type} (m : M σ α) (a : α) (ws : List Event) : Prop :=
  ∀ d, (m d).1 = Except.ok a ∧ busEvents (m d).2.trace = busEvents d.trace ++ ws

/-- A chip whose ready line is always HIGH and that answers every byte with 0. -/
def idleChip : Chip Unit where
  read := fun s => (true, s)
  transfer := fun s _ => (0, s)
  write := fun s _ _ => s

/-- A driver object before any call, attached to a chip in state `s`. -/
def Dev.init {σ : Type} (s : σ) : Dev σ :=
  { chip := s, trace := [], isRecording := false, isPlaying := false }

/-- The register addresses of the VS1063 datasheet, for concrete runs; the
properties below are proved for every `RegMap`. -/
def datasheetRegs : RegMap where
  SCI_MODE := 0x0
  SCI_BASS := 0x2
  SCI_CLOCKF := 0x3
  SCI_DECODE_TIME := 0x4
  SCI_AUDATA := 0x5
  SCI_WRAM := 0x6
  SCI_WRAMADDR := 0x7
  SCI_HDAT0 := 0x8
  SCI_HDAT1 := 0x9
  SCI_AIADDR := 0xA
  SCI_VOL := 0xB

/-! ## Plugin images -/

/-- A record of a plugin image: `literal addr ws` is `[addr, n, w_1..w_n]`,
`run addr count val` is `[addr, 0x8000 | count, val]`. -/
inductive PluginRecord where
  | literal (addr : Nat) (ws : List Nat)
  | run (addr count val : Nat)

/-- The words of a record in the image. -/
def PluginRecord.encode : PluginRecord → List Nat
  | PluginRecord.literal addr ws => addr :: ws.length :: ws
  | PluginRecord.run addr count val => [addr, 0x8000 ||| count, val]

/-- A literal record holds fewer than 0x8000 words, a run count is at most 0x7FFF. -/
def PluginRecord.WellFormed : PluginRecord → Prop
  | PluginRecord.literal _ ws => ws.length < 0x8000
  | PluginRecord.run _ count _ => count ≤ 0x7FFF

/-- The control-register writes `(reg, value)` a record stands for. -/
def PluginRecord.writes (R : RegMap) : PluginRecord → List (Nat × Nat)
  | PluginRecord.literal addr ws => (R.SCI_WRAMADDR, addr) :: ws.map (fun w => (R.SCI_WRAM, w))
  | PluginRecord.run addr count val =>
    (R.SCI_WRAMADDR, addr) :: List.replicate count (R.SCI_WRAM, val)

/-- The writes of the data words of an application record: word `k` of `n` is
`payload[2k] * 256 + payload[2k+1]`. -/
def payloadWrites (R : RegMap) (payload : List Nat) (n : Nat) : List (Nat × Nat) :=
  (List.range n).map
    (fun k => (R.SCI_WRAM, payload.getD (2 * k) 0 * 256 + payload.getD (2 * k + 1) 0))

/-! ## A register-file chip -/

/-- State of a chip that only keeps control registers: the two bytes stored per
register address, whether command-select is low, and the bytes of the frame
received since it went low. -/
structure RegFile where
  regs : Nat → Nat × Nat
  selected : Bool
  frame : List Nat

/-- The chip model of the round-trip properties: always ready; a control-write
frame (0x02, r, hi, lo) stores the two value bytes under `r`; a control-read
frame (0x03, r) replays the bytes stored under `r`, high byte first. -/
def regFileChip : Chip RegFile where
  read := fun s => (true, s)
  write := fun s l level =>
    match l with
    | Line.xcs => { s with selected := !level, frame := [] }
    | _ => s
  transfer := fun s out =>
    if s.selected then
      match s.frame with
      | [] => (0, { s with frame := [out] })
      | [op] => (0, { s with frame := [op, out] })
      | [op, r] =>
        if op = 0x03 then ((s.regs r).1, { s with frame := [op, r, out] })
        else (0, { s with frame := [op, r, out] })
      | [op, r, hi] =>
        if op = 0x02 then
          (0, { s with regs := Function.update s.regs r (hi, out), frame := [op, r, hi, out] })
        else if op = 0x03 then ((s.regs r).2, { s with frame := [op, r, hi, out] })
        else (0, { s with frame := [op, r, hi, out] })
      | _ => (0, s)
    else (0, s)

/-- The 16-bit content of register `r` as a control read delivers it. -/
def regWord (s : RegFile) (r : Nat) : Nat := (s.regs r).1 % 256 * 256 + (s.regs r).2 % 256

/-- A register file in which every register holds the 16-bit word `f r`. -/
def RegFile.ofWords (f : Nat → Nat) : RegFile :=
  { regs := fun r => (f r / 256 % 256, f r % 256), selected := false, frame := [] }

/-- Behaviour of a computation on the register-file chip: from every state
whose registers hold the words `w` it returns `a` and leaves the words `w1`. -/
def RegSpec {α : Type} (m : M RegFile α) (w : Nat → Nat) (a : α) (w1 : Nat → Nat) : Prop :=
  ∀ d : Dev RegFile, (∀ q, regWord d.chip q = w q) →
    (m d).1 = Except.ok a ∧ ∀ q, regWord (m d).2.chip q = w1 q

/-! ## Gating by the ready line -/

/-- Scan of a trace: `armed` says that the ready line was sampled HIGH and no
select-line or SPI event happened since.  The scan fails at an event that
drives a select line low while not armed. -/
def gatedFrom : Bool → List Event → Bool
  | _, [] => true
  | armed, Event.digitalRead level :: es => gatedFrom (level || armed) es
  | armed, Event.digitalWrite Line.xcs level :: es => (level || armed) && gatedFrom false es
  | armed, Event.digitalWrite Line.xdcs level :: es => (level || armed) && gatedFrom false es
  | _, Event.transfer _ :: es => gatedFrom false es
  | armed, _ :: es => gatedFrom armed es

/-- The value of `armed` at the end of a trace. -/
def armedAfter : Bool → List Event → Bool
  | armed, [] => armed
  | armed, Event.digitalRead level :: es => armedAfter (level || armed) es
  | _, Event.digitalWrite Line.xcs _ :: es => armedAfter false es
  | _, Event.digitalWrite Line.xdcs _ :: es => armedAfter false es
  | _, Event.transfer _ :: es => armedAfter false es
  | armed, _ :: es => armedAfter armed es

/-- Every event of the trace that drives a select line low is preceded by a
HIGH sample of the ready line with no select-line or SPI event in between. -/
def Gated (t : List Event) : Prop := gatedFrom false t = true

/-- The trace ends armed. -/
def Armed (t : List Event) : Prop := armedAfter false t = true

/-- The computation `m` keeps traces gated, whether it returns or not. -/
def Safe {σ α : Type} (m : M σ α) : Prop := ∀ d, Gated d.trace → Gated (m d).2.trace

/-- A call of a public member function of the class, with its arguments. -/
inductive Call where
  | begin
  | softReset
  | hardReset
  | isReady
  | startPlayback
  | stopPlayback
  | pausePlayback (pause : Bool)
  | setVolume (left right : Nat)
  | getDecodeTime
  | startRecording (format : RecordFormat) (sampleRate : Nat)
  | stopRecording
  | isRecording
  | getRecordingData (buf : List Nat) (len : Nat)
  | setBass (bassBoost freqLimit : Nat)
  | setTreble (trebleBoost freqLimit : Nat)
  | setEqualizer5Band (gains : List Int)
  | setEarSpeaker (enable : Bool)
  | setSpeed (percent : Nat)
  | setADMixer (gain : Nat)
  | setPCMMixer (volume : Nat)
  | writeData (data : List Nat) (len : Nat)
  | readData (buffer : List Nat) (len : Nat)
  | loadPlugin (plugin : List Nat) (len : Nat)
  | activatePlugin (startAddr : Nat)
  | deactivatePlugin
  | loadApplication (image : List Nat) (len : Nat)
  | setClockFrequency (freq : Nat)
  | setSampleRate (rate : Nat)
  | setGPIO (pin : Nat) (state : Bool)
  | getGPIO (pin : Nat)
  | readRegister (reg : Nat)
  | writeRegister (reg value : Nat)
  | getChipID

/-- Discard the value a call returns. -/
def ignore {σ α : Type} (m : M σ α) : M σ Unit := m >>= fun _ => pure ()

/-- Run one public call on the driver. -/
def exec {σ : Type} (hw : Chip σ) (R : RegMap) (fuel : Nat) : Call → M σ Unit
  | Call.begin => begin hw R fuel
  | Call.softReset => softReset hw R fuel
  | Call.hardReset => hardReset hw
  | Call.isReady => ignore (isReady hw)
  | Call.startPlayback => startPlayback hw R fuel
  | Call.stopPlayback => stopPlayback hw R fuel
  | Call.pausePlayback pause => pausePlayback hw R fuel pause
  | Call.setVolume left right => setVolume hw R fuel left right
  | Call.getDecodeTime => ignore (getDecodeTime hw R fuel)
  | Call.startRecording format sampleRate => startRecording hw R fuel format sampleRate
  | Call.stopRecording => stopRecording hw R fuel
  | Call.isRecording => ignore isRecording
  | Call.getRecordingData buf len => ignore (getRecordingData hw buf len)
  | Call.setBass bassBoost freqLimit => setBass hw R fuel bassBoost freqLimit
  | Call.setTreble trebleBoost freqLimit => setTreble hw R fuel trebleBoost freqLimit
  | Call.setEqualizer5Band gains => setEqualizer5Band hw R fuel gains
  | Call.setEarSpeaker enable => setEarSpeaker hw R fuel enable
  | Call.setSpeed percent => setSpeed hw R fuel percent
  | Call.setADMixer gain => setADMixer hw R fuel gain
  | Call.setPCMMixer volume => setPCMMixer hw R fuel volume
  | Call.writeData data len => writeData hw data len
  | Call.readData buffer len => ignore (readData hw buffer len)
  | Call.loadPlugin plugin len => loadPlugin hw R fuel plugin len
  | Call.activatePlugin startAddr => activatePlugin hw R fuel startAddr
  | Call.deactivatePlugin => deactivatePlugin hw R fuel
  | Call.loadApplication image len => loadApplication hw R fuel image len
  | Call.setClockFrequency freq => setClockFrequency hw R fuel freq
  | Call.setSampleRate rate => setSampleRate hw R fuel rate
  | Call.setGPIO pin state => setGPIO hw R fuel pin state
  | Call.getGPIO pin => ignore ( getGPIO hw R fuel pin)
  | Call.readRegister reg => ignore (readRegister hw fuel reg)
  | Call.writeRegister reg value => writeRegister hw fuel reg value
  | Call.getChipID => ignore (getChipID hw R fuel)

/-- A chip whose ready line follows a fixed schedule of samples and is HIGH
once the schedule is used up; it answers every byte with 0. -/
def scheduleChip : Chip (List Bool) where
  read := fun s =>
    match s with
    | [] => (true, [])
    | b :: rest => (b, rest)
  transfer := fun s _ => (0, s)
  write := fun s _ _ => s

/-! ## Reasoning about runs -/

section Lemmas

variable {σ : Type} (hw : Chip σ) (R : RegMap) (fuel : Nat)

theorem bind_apply {α β : Type} (m : M σ α) (f : α → M σ β) (d : Dev σ) :
    (m >>= f) d = match m d with
      | (Except.ok a, d1) => f a d1
      | (Except.error e, d1) => (Except.error e, d1) := by
  rcases h : m d with ⟨r, d1⟩
  have e : (m >>= f) d = M.bind m f d := rfl
  rw [e, M.bind, h]

theorem pure_apply {α : Type} (a : α) (d : Dev σ) :
    (pure a : M σ α) d = (Except.ok a, d) := by
  have e : (pure a : M σ α) = M.pure a := rfl
  rw [e, M.pure]

theorem index_apply {α : Type} (xs : List α) (i : Nat) (x : α) (d : Dev σ)
    (h : xs[i]? = some x) : (index xs i : M σ α) d = (Except.ok x, d) := by
  rw [index, h]
  simp only [M.pure]

theorem index_bind {α β : Type} (xs : List α) (i : Nat) (x : α) (f : α → M σ β)
    (h : xs[i]? = some x) : (index xs i >>= f) = f x := by
  funext d
  rw [bind_apply, index_apply xs i x d h]

theorem bind_ok {α β : Type} {m : M σ α} (f : α → M σ β) {d : Dev σ} {a : α}
    (h : (m d).1 = Except.ok a) : (m >>= f) d = f a (m d).2 := by
  rw [bind_apply]
  rcases hm : m d with ⟨r, d1⟩
  rw [hm] at h
  cases r with
  | ok x =>
    simp only at h
    cases h
    rfl
  | error e => simp at h

theorem digitalRead_apply (d : Dev σ) : digitalRead hw d =
    (Except.ok (hw.read d.chip).1,
      { d with chip := (hw.read d.chip).2,
               trace := d.trace ++ [Event.digitalRead (hw.read d.chip).1] }) := by
  rw [digitalRead]

theorem digitalWrite_apply (l : Line) (v : Bool) (d : Dev σ) : digitalWrite hw l v d =
    (Except.ok (), { d with chip := hw.write d.chip l v,
                            trace := d.trace ++ [Event.digitalWrite l v] }) := by
  rw [digitalWrite]

theorem transfer_apply (out : Nat) (d : Dev σ) : transfer hw out d =
    (Except.ok ((hw.transfer d.chip out).1 % 256),
      { d with chip := (hw.transfer d.chip out).2,
               trace := d.trace ++ [Event.transfer out] }) := by
  rw [transfer]

theorem delayMicroseconds_apply (us : Nat) (d : Dev σ) : delayMicroseconds us d =
    (Except.ok (), { d with trace := d.trace ++ [Event.delayMicroseconds us] }) := by
  rw [delayMicroseconds]

theorem delay_apply (ms : Nat) (d : Dev σ) : delay ms d =
    (Except.ok (), { d with trace := d.trace ++ [Event.delay ms] }) := by
  rw [delay]

theorem word_of_bytes (hi lo : Nat) (hhi : hi < 256) (hlo : lo < 256) :
    ((hi <<< 8) ||| lo) % 65536 = hi * 256 + lo := by
  have h := Nat.mul_add_lt_is_or (show lo < 2 ^ 8 from hlo) hi
  rw [Nat.shiftLeft_eq, Nat.mul_comm hi (2 ^ 8), ← h]
  omega

theorem busEvents_append (t u : List Event) :
    busEvents (t ++ u) = busEvents t ++ busEvents u := by
  simp [busEvents]

theorem runs_pure {α : Type} (a : α) : Runs (pure a : M σ α) a [] := by
  intro d
  exact ⟨rfl, by simp [pure_apply]⟩

theorem runs_bind {α β : Type} {m : M σ α} {f : α → M σ β} {a : α} {b : β}
    {w1 w2 : List Event} (h1 : Runs m a w1) (h2 : Runs (f a) b w2) :
    Runs (m >>= f) b (w1 ++ w2) := by
  intro d
  rw [bind_ok f (h1 d).1]
  refine ⟨(h2 _).1, ?_⟩
  rw [(h2 _).2, (h1 d).2, List.append_assoc]

theorem waitForDreq_ok (n : Nat) (d : Dev σ) (h : readyWithin hw n d.chip = true) :
    (waitForDreq hw n d).1 = Except.ok () ∧
      busEvents (waitForDreq hw n d).2.trace = busEvents d.trace := by
  induction n generalizing d with
  | zero => simp [readyWithin] at h
  | succ n ih =>
    cases hr : (hw.read d.chip).1 with
    | true =>
      simp [waitForDreq, bind_apply, digitalRead_apply, hr, pure_apply, busEvents_append,
        busEvents, isBusEvent]
    | false =>
      simp only [readyWithin, hr, Bool.false_or] at h
      have ih2 := ih
        { d with chip := (hw.read d.chip).2,
                 trace := d.trace ++ [Event.digitalRead false] ++ [Event.delayMicroseconds 10] } h
      simp only [waitForDreq, bind_apply, digitalRead_apply, hr, delayMicroseconds_apply,
        if_true]
      refine ⟨ih2.1, ?_⟩
      rw [ih2.2]
      simp [busEvents_append, busEvents, isBusEvent]

theorem runs_writeSCI (h : Responsive hw fuel) (reg value : Nat) :
    Runs (writeSCI hw fuel reg value) () (writeFrame reg value) := by
  intro d
  have hw1 := waitForDreq_ok hw fuel d (h d.chip)
  have hw2 : List.filter isBusEvent (waitForDreq hw fuel d).2.trace =
      List.filter isBusEvent d.trace := hw1.2
  unfold writeSCI
  rw [bind_ok _ hw1.1]
  simp [bind_apply, digitalWrite_apply, transfer_apply, hw2, busEvents, isBusEvent, writeFrame]

theorem runs_congr {α : Type} {m : M σ α} {a b : α} {w v : List Event}
    (h : Runs m a w) (hab : a = b) (hwv : w = v) : Runs m b v := by
  subst hab
  subst hwv
  exact h

theorem writeFrames_nil : writeFrames [] = [] := rfl

theorem writeFrames_cons (w : Nat × Nat) (ws : List (Nat × Nat)) :
    writeFrames (w :: ws) = writeFrame w.1 w.2 ++ writeFrames ws := by
  simp [writeFrames]

theorem writeFrames_append (ws vs : List (Nat × Nat)) :
    writeFrames (ws ++ vs) = writeFrames ws ++ writeFrames vs := by
  simp [writeFrames]

theorem range_map_succ {α : Type} (f : Nat → α) (n : Nat) :
    (List.range (n + 1)).map f = f 0 :: (List.range n).map (fun k => f (k + 1)) := by
  rw [List.range_succ_eq_map, List.map_cons, List.map_map]
  rfl

theorem getElem?_getD_zero (l : List Nat) (i : Nat) (h : i < l.length) :
    l[i]? = some (l.getD i 0) := by
  simp [List.getD_eq_getElem?_getD, List.getElem?_eq_getElem h]

theorem getD_lt_of_forall (l : List Nat) (i n : Nat) (hn : 0 < n) (h : ∀ b ∈ l, b < n) :
    l.getD i 0 < n := by
  by_cases hi : i < l.length
  · have e := getElem?_getD_zero l i hi
    have hm : l.getD i 0 ∈ l := List.getElem?_mem e
    exact h _ hm
  · have : l[i]? = none := List.getElem?_eq_none (Nat.le_of_not_lt hi)
    simp [List.getD_eq_getElem?_getD, this, hn]

theorem getElem?_mid (pre mid post : List Nat) (j x : Nat) (h : mid[j]? = some x) :
    (pre ++ mid ++ post)[pre.length + j]? = some x := by
  have hj : j < mid.length := by
    by_contra hc
    rw [List.getElem?_eq_none (Nat.le_of_not_lt hc)] at h
    cases h
  rw [List.append_assoc, List.getElem?_append_right (by omega), Nat.add_sub_cancel_left,
    List.getElem?_append_left hj]
  exact h

theorem and_high_bit_of_lt (n : Nat) (h : n < 0x8000) : n &&& 0x8000 = 0 := by
  apply Nat.eq_of_testBit_eq
  intro i
  rw [Nat.testBit_and, show (0x8000 : Nat) = 2 ^ 15 by norm_num, Nat.testBit_two_pow,
    Nat.zero_testBit]
  by_cases hi : 15 = i
  · subst hi
    rw [Nat.testBit_lt_two_pow (by norm_num; exact h)]
    rfl
  · simp [hi]

theorem high_bit_or (c : Nat) (h : c ≤ 0x7FFF) : 0x8000 ||| c = 0x8000 + c := by
  have e := Nat.mul_add_lt_is_or (show c < 2 ^ 15 by norm_num; omega) 1
  norm_num at e
  exact e.symm

theorem and_high_bit_of_or (c : Nat) : (0x8000 ||| c) &&& 0x8000 ≠ 0 := by
  intro h0
  have ht : ((0x8000 ||| c) &&& 0x8000).testBit 15 = true := by
    rw [Nat.testBit_and, Nat.testBit_or]
    have : (0x8000 : Nat).testBit 15 = true := by decide
    rw [this]
    rfl
  rw [h0, Nat.zero_testBit] at ht
  cases ht

theorem and_low_bits_of_or (c : Nat) (h : c ≤ 0x7FFF) : (0x8000 ||| c) &&& 0x7FFF = c := by
  rw [high_bit_or c h]
  have e := Nat.and_pow_two_sub_one_eq_mod (0x8000 + c) 15
  norm_num at e
  rw [e]
  omega

end Lemmas

/-! ## Application images -/

section Application

variable {σ : Type} (hw : Chip σ) (R : RegMap) (fuel : Nat)

/-- C3: a buffer of at least three bytes whose first three bytes are not
'P', '&', 'H' makes `loadApplication` return at once, for every `len`: the
call returns normally and the trace and the chip are exactly as before. -/
theorem loadApplication_bad_magic (image : List Nat) (len : Nat) (d : Dev σ)
    (hlen : 3 ≤ image.length) (hmagic : image.take 3 ≠ [0x50, 0x26, 0x48]) :
    loadApplication hw R fuel image len d = (Except.ok (), d) := by
  match image, hlen with
  | b0 :: b1 :: b2 :: rest, _ =>
    simp only [List.take, ne_eq, List.cons.injEq, and_true, not_and] at hmagic
    unfold loadApplication
    by_cases h0 : b0 = 0x50
    · by_cases h1 : b1 = 0x26
      · have h2 := hmagic h0 h1
        simp [bind_apply, index, M.pure, pure_apply, h0, h1, h2]
      · simp [bind_apply, index, M.pure, pure_apply, h0, h1]
    · simp [bind_apply, index, M.pure, pure_apply, h0]

theorem loadApplication_bad_magic_witness :
    loadApplication idleChip datasheetRegs 5 [0x50, 0x26, 0x49, 3, 0, 0, 0x12, 0x34] 8
      (Dev.init ()) = (Except.ok (), Dev.init ()) :=
  loadApplication_bad_magic idleChip datasheetRegs 5 _ 8 _ (by decide) (by decide)

theorem appLoop_execute (l1 l0 a1 a0 : Nat) (rest : List Nat) (len : Nat) (k : Nat)
    (ha1 : a1 < 256) (ha0 : a0 < 256) (hlen : 3 < len) :
    appLoop hw R fuel (0x50 :: 0x26 :: 0x48 :: 3 :: l1 :: l0 :: a1 :: a0 :: rest) len (k + 1) 3 =
      writeSCI hw fuel R.SCI_AIADDR (a1 * 256 + a0) := by
  rw [appLoop, if_pos hlen]
  simp only [Nat.reduceAdd, Nat.reduceMod]
  rw [index_bind _ 3 3 _ rfl]
  simp only [gt_iff_lt, lt_self_iff_false, if_false, if_true]
  rw [index_bind _ 4 l1 _ rfl, index_bind _ 5 l0 _ rfl, index_bind _ 6 a1 _ rfl,
    index_bind _ 7 a0 _ (by simp), word_of_bytes a1 a0 ha1 ha0]

/-- C4: on a buffer that begins 'P', '&', 'H', 3, two length bytes and the two
address bytes `a1`, `a0`, followed by any bytes, `loadApplication` (with
`len` past the header, in particular `len` the buffer length, and a chip that
becomes ready) returns having put on the wires exactly one control write, of
`a1 * 256 + a0` to `SCI_AIADDR`; nothing after the record is read. -/
theorem loadApplication_execute (l1 l0 a1 a0 : Nat) (rest : List Nat) (len : Nat)
    (ha1 : a1 < 256) (ha0 : a0 < 256) (hlen : 3 < len)
    (hfuel : 0 < fuel) (hresp : Responsive hw fuel) :
    Runs (loadApplication hw R fuel (0x50 :: 0x26 :: 0x48 :: 3 :: l1 :: l0 :: a1 :: a0 :: rest) len)
      () (writeFrames [(R.SCI_AIADDR, a1 * 256 + a0)]) := by
  obtain ⟨k, rfl⟩ := Nat.exists_eq_succ_of_ne_zero (Nat.pos_iff_ne_zero.mp hfuel)
  have e : loadApplication hw R (k + 1)
      (0x50 :: 0x26 :: 0x48 :: 3 :: l1 :: l0 :: a1 :: a0 :: rest) len =
      writeSCI hw (k + 1) R.SCI_AIADDR (a1 * 256 + a0) := by
    rw [loadApplication, index_bind _ 0 0x50 _ rfl]
    simp only [ne_eq, not_true_eq_false, if_false]
    rw [index_bind _ 1 0x26 _ rfl]
    simp only [ne_eq, not_true_eq_false, if_false]
    rw [index_bind _ 2 0x48 _ rfl]
    simp only [ne_eq, not_true_eq_false, if_false]
    exact appLoop_execute hw R (k + 1) l1 l0 a1 a0 rest len k ha1 ha0 hlen
  rw [e]
  simpa [writeFrames] using runs_writeSCI hw (k + 1) hresp R.SCI_AIADDR (a1 * 256 + a0)

theorem loadApplication_execute_witness :
    Runs (loadApplication idleChip datasheetRegs 1 [0x50, 0x26, 0x48, 3, 0, 0, 0x12, 0x34] 8)
      () (writeFrames [(0x0A, 0x1234)]) :=
  loadApplication_execute idleChip datasheetRegs 1 0 0 0x12 0x34 [] 8 (by decide) (by decide)
    (by decide) (by decide) (fun _ => rfl)

theorem appWords_runs (image : List Nat) (hb : ∀ b ∈ image, b < 256)
    (hlen : image.length < 4294967296) (hresp : Responsive hw fuel) (n pos : Nat)
    (h : pos + 2 * n ≤ image.length) :
    Runs (appWords hw R fuel image n pos) (pos + 2 * n)
      (writeFrames ((List.range n).map (fun k =>
        (R.SCI_WRAM, image.getD (pos + 2 * k) 0 * 256 + image.getD (pos + 2 * k + 1) 0)))) := by
  induction n generalizing pos with
  | zero =>
    rw [appWords]
    exact runs_congr (runs_pure pos) rfl rfl
  | succ n ih =>
    rw [appWords, index_bind image pos _ _ (getElem?_getD_zero image pos (by omega)),
      Nat.mod_eq_of_lt (show pos + 1 < 4294967296 by omega),
      index_bind image (pos + 1) _ _ (getElem?_getD_zero image (pos + 1) (by omega)),
      Nat.mod_eq_of_lt (show pos + 2 < 4294967296 by omega),
      word_of_bytes _ _ (getD_lt_of_forall image pos 256 (by decide) hb)
        (getD_lt_of_forall image (pos + 1) 256 (by decide) hb)]
    refine runs_congr (runs_bind (runs_writeSCI hw fuel hresp _ _) (ih (pos + 2) (by omega)))
      (by omega) ?_
    have hf : (fun k => (R.SCI_WRAM,
          image.getD (pos + 2 + 2 * k) 0 * 256 + image.getD (pos + 2 + 2 * k + 1) 0)) =
        (fun k => (R.SCI_WRAM,
          image.getD (pos + 2 * (k + 1)) 0 * 256 + image.getD (pos + 2 * (k + 1) + 1) 0)) := by
      funext k
      rw [show pos + 2 + 2 * k = pos + 2 * (k + 1) by omega]
    rw [hf, range_map_succ, writeFrames_cons]
    simp only [Nat.mul_zero, Nat.add_zero]

theorem getD_header (a b c e f g h i : Nat) (l : List Nat) (j : Nat) :
    (a :: b :: c :: e :: f :: g :: h :: i :: l).getD (8 + j) 0 = l.getD j 0 := by
  rw [show 8 + j = j + 8 by omega]
  rfl

/-- C2 (amended): on the image 'P','&','H', t, L (two bytes, big-endian),
A (two bytes, big-endian), payload of exactly L bytes, with `len = 8 + L`
and t in 0..2, when L is even or the last payload byte is greater than 3,
`loadApplication` returns having put on the wires exactly one write of A to
`SCI_WRAMADDR` followed by `L / 2` writes to `SCI_WRAM`, the k-th being
`payload[2k] * 256 + payload[2k+1]`. -/
theorem loadApplication_data (t l1 l0 a1 a0 : Nat) (payload : List Nat)
    (ht : t < 3) (hl1 : l1 < 256) (hl0 : l0 < 256) (ha1 : a1 < 256) (ha0 : a0 < 256)
    (hpay : ∀ b ∈ payload, b < 256) (hL : payload.length = l1 * 256 + l0)
    (hend : payload.length % 2 = 1 → ∃ b, payload.getLast? = some b ∧ 3 < b)
    (hfuel : 2 ≤ fuel) (hresp : Responsive hw fuel) :
    Runs (loadApplication hw R fuel
        (0x50 :: 0x26 :: 0x48 :: t :: l1 :: l0 :: a1 :: a0 :: payload) (8 + payload.length))
      () (writeFrames ((R.SCI_WRAMADDR, a1 * 256 + a0) ::
        payloadWrites R payload (payload.length / 2))) := by
  obtain ⟨k, rfl⟩ : ∃ k, fuel = k + 2 := ⟨fuel - 2, by omega⟩
  have hbytes : ∀ b ∈ (0x50 :: 0x26 :: 0x48 :: t :: l1 :: l0 :: a1 :: a0 :: payload), b < 256 := by
    intro b hb
    simp only [List.mem_cons] at hb
    rcases hb with h | h | h | h | h | h | h | h | h
    · omega
    · omega
    · omega
    · omega
    · omega
    · omega
    · omega
    · omega
    · exact hpay b h
  have hwords := appWords_runs hw R (k + 2)
    (0x50 :: 0x26 :: 0x48 :: t :: l1 :: l0 :: a1 :: a0 :: payload) hbytes
    (by simp only [List.length_cons]; omega) hresp (payload.length / 2) 8
    (by simp only [List.length_cons]; omega)
  have htail : Runs (appLoop hw R (k + 2)
      (0x50 :: 0x26 :: 0x48 :: t :: l1 :: l0 :: a1 :: a0 :: payload) (8 + payload.length)
      (k + 1) (8 + 2 * (payload.length / 2))) () [] := by
    rw [appLoop]
    by_cases hodd : payload.length % 2 = 1
    · obtain ⟨b, hb, hb3⟩ := hend hodd
      have hidx : (0x50 :: 0x26 :: 0x48 :: t :: l1 :: l0 :: a1 :: a0 :: payload)[
          8 + 2 * (payload.length / 2)]? = some b := by
        rw [List.getLast?_eq_getElem?] at hb
        rw [show 8 + 2 * (payload.length / 2) = (payload.length - 1) + 8 by omega]
        simpa only [List.getElem?_cons_succ] using hb
      rw [if_pos (by omega), index_bind _ _ b _ hidx]
      simp only [gt_iff_lt, hb3, if_true]
      exact runs_pure ()
    · rw [if_neg (by omega)]
      exact runs_pure ()
  have e : loadApplication hw R (k + 2)
      (0x50 :: 0x26 :: 0x48 :: t :: l1 :: l0 :: a1 :: a0 :: payload) (8 + payload.length) =
      (writeSCI hw (k + 2) R.SCI_WRAMADDR (a1 * 256 + a0) >>= fun _ =>
        appWords hw R (k + 2) (0x50 :: 0x26 :: 0x48 :: t :: l1 :: l0 :: a1 :: a0 :: payload)
          (payload.length / 2) 8 >>= fun p =>
        appLoop hw R (k + 2) (0x50 :: 0x26 :: 0x48 :: t :: l1 :: l0 :: a1 :: a0 :: payload)
          (8 + payload.length) (k + 1) p) := by
    rw [loadApplication, index_bind _ 0 0x50 _ rfl]
    simp only [ne_eq, not_true_eq_false, if_false]
    rw [index_bind _ 1 0x26 _ rfl]
    simp only [ne_eq, not_true_eq_false, if_false]
    rw [index_bind _ 2 0x48 _ rfl]
    simp only [ne_eq, not_true_eq_false, if_false]
    rw [appLoop, if_pos (by omega)]
    simp only [Nat.reduceAdd, Nat.reduceMod]
    rw [index_bind _ 3 t _ rfl]
    rw [if_neg (by omega), index_bind _ 4 l1 _ rfl, index_bind _ 5 l0 _ rfl,
      index_bind _ 6 a1 _ rfl, index_bind _ 7 a0 _ (by simp), if_neg (by omega),
      word_of_bytes a1 a0 ha1 ha0, word_of_bytes l1 l0 hl1 hl0, ← hL]
  rw [e]
  refine runs_congr (runs_bind (runs_writeSCI hw (k + 2) hresp _ _)
    (runs_bind hwords htail)) rfl ?_
  have hf : (fun j => (R.SCI_WRAM,
        (0x50 :: 0x26 :: 0x48 :: t :: l1 :: l0 :: a1 :: a0 :: payload).getD (8 + 2 * j) 0 * 256 +
        (0x50 :: 0x26 :: 0x48 :: t :: l1 :: l0 :: a1 :: a0 :: payload).getD (8 + 2 * j + 1) 0)) =
      (fun j => (R.SCI_WRAM, payload.getD (2 * j) 0 * 256 + payload.getD (2 * j + 1) 0)) := by
    funext j
    rw [getD_header, show 8 + 2 * j + 1 = 8 + (2 * j + 1) by omega, getD_header]
  rw [hf, writeFrames_cons, List.append_nil, payloadWrites]

theorem loadApplication_data_witness :
    Runs (loadApplication idleChip datasheetRegs 2
        [0x50, 0x26, 0x48, 0, 0, 3, 0x00, 0x10, 0xAA, 0xBB, 0xCC] 11)
      () (writeFrames [(0x07, 0x0010), (0x06, 0xAABB)]) :=
  loadApplication_data idleChip datasheetRegs 2 0 0 3 0x00 0x10 [0xAA, 0xBB, 0xCC]
    (by decide) (by decide) (by decide) (by decide) (by decide) (by decide) (by decide)
    (fun _ => ⟨0xCC, rfl, by decide⟩) (by decide) (fun _ => rfl)

/-- C2 as stated fails for an odd length whose last payload byte is a record
type: with L = 1 and payload [3] the loop takes the last byte for a type tag
and reads past the buffer; when the bytes 0, 0, 0x12, 0x34 follow the buffer in
memory a second write, of 0x1234 to `SCI_AIADDR`, is issued. -/
theorem loadApplication_data_odd_counterexample :
    ¬ Runs (loadApplication idleChip datasheetRegs 2
        [0x50, 0x26, 0x48, 0, 0, 1, 0x00, 0x10, 3] 9) () (writeFrames [(0x07, 0x0010)]) ∧
    (loadApplication idleChip datasheetRegs 2
        [0x50, 0x26, 0x48, 0, 0, 1, 0x00, 0x10, 3] 9 (Dev.init ())).1 =
      Except.error Fault.outOfBounds ∧
    busEvents (loadApplication idleChip datasheetRegs 2
        ([0x50, 0x26, 0x48, 0, 0, 1, 0x00, 0x10, 3] ++ [0, 0, 0x12, 0x34]) 9 (Dev.init ())).2.trace =
      writeFrames [(0x07, 0x0010), (0x0A, 0x1234)] := by
  have h : (loadApplication idleChip datasheetRegs 2
        [0x50, 0x26, 0x48, 0, 0, 1, 0x00, 0x10, 3] 9 (Dev.init ())).1 =
      Except.error Fault.outOfBounds := rfl
  refine ⟨?_, h, rfl⟩
  intro hr
  have h2 := (hr (Dev.init ())).1
  rw [h] at h2
  cases h2

end Application

/-! ## Plugin images -/

section Plugin

variable {σ : Type} (hw : Chip σ) (R : RegMap) (fuel : Nat)

theorem pluginRun_runs (hresp : Responsive hw fuel) (val n : Nat) :
    Runs (pluginRun hw R fuel val n) () (writeFrames (List.replicate n (R.SCI_WRAM, val))) := by
  induction n with
  | zero =>
    rw [pluginRun]
    exact runs_pure ()
  | succ n ih =>
    rw [pluginRun, List.replicate_succ, writeFrames_cons]
    exact runs_bind (runs_writeSCI hw fuel hresp _ _) ih

theorem pluginLiteral_runs (hresp : Responsive hw fuel) (plugin post : List Nat)
    (hlen : plugin.length < 65536) (ws pre : List Nat) (hp : plugin = pre ++ ws ++ post) :
    Runs (pluginLiteral hw R fuel plugin ws.length pre.length) (pre.length + ws.length)
      (writeFrames (ws.map (fun w => (R.SCI_WRAM, w)))) := by
  induction ws generalizing pre with
  | nil =>
    rw [List.length_nil, pluginLiteral]
    exact runs_pure _
  | cons w ws ih =>
    have hidx : plugin[pre.length]? = some w := by
      rw [hp]
      exact getElem?_mid pre (w :: ws) post 0 w (by simp)
    have hl : pre.length + 1 < 65536 := by
      have := congrArg List.length hp
      simp only [List.length_append, List.length_cons] at this
      omega
    rw [List.length_cons, pluginLiteral, index_bind plugin _ w _ hidx, Nat.mod_eq_of_lt hl,
      List.map_cons, writeFrames_cons]
    have ih2 := ih (pre ++ [w]) (by rw [hp]; simp)
    rw [List.length_append, List.length_singleton] at ih2
    exact runs_congr (runs_bind (runs_writeSCI hw fuel hresp _ _) ih2) (by omega) rfl

theorem pluginLoop_runs (hresp : Responsive hw fuel) (plugin : List Nat)
    (hlen : plugin.length < 65536) (rs : List PluginRecord) (pre : List Nat) (k : Nat)
    (hp : plugin = pre ++ rs.flatMap PluginRecord.encode)
    (hwf : ∀ r ∈ rs, r.WellFormed) (hk : rs.length < k) :
    Runs (pluginLoop hw R fuel plugin plugin.length k pre.length) ()
      (writeFrames (rs.flatMap (PluginRecord.writes R))) := by
  induction rs generalizing pre k with
  | nil =>
    obtain ⟨k, rfl⟩ : ∃ j, k = j + 1 := ⟨k - 1, by simp at hk; omega⟩
    have hl : plugin.length = pre.length := by rw [hp]; simp
    rw [pluginLoop, if_neg (by omega)]
    exact runs_pure ()
  | cons r rs ih =>
    obtain ⟨k, rfl⟩ : ∃ j, k = j + 1 := ⟨k - 1, by simp at hk; omega⟩
    have hp2 : plugin = pre ++ r.encode ++ rs.flatMap PluginRecord.encode := by
      rw [hp, List.flatMap_cons, List.append_assoc]
    have hl := congrArg List.length hp2
    simp only [List.length_append] at hl
    have ih2 := ih (pre ++ r.encode) k hp2 (fun x hx => hwf x (List.mem_cons_of_mem _ hx))
      (by simp only [List.length_cons] at hk; omega)
    rw [List.length_append] at ih2
    have hr := hwf r (List.mem_cons_self _ _)
    rw [List.flatMap_cons, writeFrames_append]
    cases r with
    | literal addr ws =>
      simp only [PluginRecord.encode, List.length_cons] at hl ih2
      simp only [PluginRecord.WellFormed] at hr
      have h0 : plugin[pre.length]? = some addr := by
        have := getElem?_mid pre (PluginRecord.literal addr ws).encode
          (rs.flatMap PluginRecord.encode) 0 addr (by simp [PluginRecord.encode])
        rwa [← hp2] at this
      have h1 : plugin[pre.length + 1]? = some ws.length := by
        have := getElem?_mid pre (PluginRecord.literal addr ws).encode
          (rs.flatMap PluginRecord.encode) 1 ws.length (by simp [PluginRecord.encode])
        rwa [← hp2] at this
      have hlit := pluginLiteral_runs hw R fuel hresp plugin (rs.flatMap PluginRecord.encode)
        hlen ws (pre ++ [addr, ws.length]) (by rw [hp2]; simp [PluginRecord.encode])
      rw [show (pre ++ [addr, ws.length]).length = pre.length + 2 by simp] at hlit
      rw [show pre.length + (ws.length + 1 + 1) = pre.length + 2 + ws.length by omega] at ih2
      rw [pluginLoop, if_pos (by omega), index_bind plugin _ addr _ h0,
        Nat.mod_eq_of_lt (show pre.length + 1 < 65536 by omega),
        index_bind plugin _ ws.length _ h1]
      simp only []
      rw [if_neg (by rw [and_high_bit_of_lt _ hr]; simp),
        Nat.mod_eq_of_lt (show pre.length + 2 < 65536 by omega)]
      simp only [PluginRecord.writes, writeFrames_cons]
      rw [List.append_assoc]
      refine runs_bind (runs_writeSCI hw fuel hresp _ _) (runs_bind hlit ?_)
      exact ih2
    | run addr count val =>
      simp only [PluginRecord.encode, List.length_cons, List.length_nil] at hl ih2
      simp only [PluginRecord.WellFormed] at hr
      have h0 : plugin[pre.length]? = some addr := by
        have := getElem?_mid pre (PluginRecord.run addr count val).encode
          (rs.flatMap PluginRecord.encode) 0 addr (by simp [PluginRecord.encode])
        rwa [← hp2] at this
      have h1 : plugin[pre.length + 1]? = some (0x8000 ||| count) := by
        have := getElem?_mid pre (PluginRecord.run addr count val).encode
          (rs.flatMap PluginRecord.encode) 1 (0x8000 ||| count) (by simp [PluginRecord.encode])
        rwa [← hp2] at this
      have h2 : plugin[pre.length + 2]? = some val := by
        have := getElem?_mid pre (PluginRecord.run addr count val).encode
          (rs.flatMap PluginRecord.encode) 2 val (by simp [PluginRecord.encode])
        rwa [← hp2] at this
      rw [pluginLoop, if_pos (by omega), index_bind plugin _ addr _ h0,
        Nat.mod_eq_of_lt (show pre.length + 1 < 65536 by omega),
        index_bind plugin _ (0x8000 ||| count) _ h1]
      simp only []
      rw [if_pos (and_high_bit_of_or count),
        Nat.mod_eq_of_lt (show pre.length + 2 < 65536 by omega),
        index_bind plugin _ val _ h2, and_low_bits_of_or count hr,
        Nat.mod_eq_of_lt (show pre.length + 2 + 1 < 65536 by omega)]
      simp only [PluginRecord.writes, writeFrames_cons]
      rw [List.append_assoc]
      refine runs_bind (runs_writeSCI hw fuel hresp _ _)
        (runs_bind (pluginRun_runs hw R fuel hresp val count) ?_)
      rw [show pre.length + (0 + 1 + 1 + 1) = pre.length + 2 + 1 by omega] at ih2
      exact ih2

/-- C1: for every sequence of well-formed records (literal with fewer than
0x8000 words, run-length with count at most 0x7FFF) whose encoding fits a
16-bit word count, `loadPlugin` called on the concatenated encoding with `len`
its word count returns, and the wire events it produced are exactly the
control writes of the records in order: `SCI_WRAMADDR := addr`, then the
words (literal) or count copies of the value (run-length) on `SCI_WRAM`. -/
theorem loadPlugin_decodes (rs : List PluginRecord)
    (hwf : ∀ r ∈ rs, r.WellFormed)
    (hlen : (rs.flatMap PluginRecord.encode).length < 65536)
    (hfuel : rs.length < fuel) (hresp : Responsive hw fuel) :
    Runs (loadPlugin hw R fuel (rs.flatMap PluginRecord.encode)
        (rs.flatMap PluginRecord.encode).length)
      () (writeFrames (rs.flatMap (PluginRecord.writes R))) := by
  rw [loadPlugin]
  exact pluginLoop_runs hw R fuel hresp _ hlen rs [] fuel (by simp) hwf hfuel

theorem loadPlugin_decodes_witness :
    Runs (loadPlugin idleChip datasheetRegs 3 [0x10, 0x0002, 0xAAAA, 0xBBBB, 0x20, 0x8003, 0x5555] 7)
      () (writeFrames [(0x07, 0x10), (0x06, 0xAAAA), (0x06, 0xBBBB),
        (0x07, 0x20), (0x06, 0x5555), (0x06, 0x5555), (0x06, 0x5555)]) :=
  loadPlugin_decodes idleChip datasheetRegs 3
    [PluginRecord.literal 0x10 [0xAAAA, 0xBBBB], PluginRecord.run 0x20 3 0x5555]
    (by
      intro r hr
      simp only [List.mem_cons, List.mem_singleton, List.not_mem_nil, or_false] at hr
      rcases hr with h | h
      · subst h
        simp [PluginRecord.WellFormed]
      · subst h
        simp [PluginRecord.WellFormed])
    (by decide) (by decide) (fun _ => rfl)

end Plugin

/-! ## Register file round trips -/

section Registers

variable (R : RegMap)

theorem word_of_bytes_shift (hi lo : Nat) (hhi : hi < 256) (hlo : lo < 256) :
    ((hi <<< 8) % 65536) ||| lo = hi * 256 + lo := by
  have h := Nat.mul_add_lt_is_or (show lo < 2 ^ 8 from hlo) hi
  rw [Nat.shiftLeft_eq, Nat.mod_eq_of_lt (by omega), Nat.mul_comm hi (2 ^ 8), ← h]

theorem bytes_of_word (v : Nat) :
    ((v >>> 8) &&& 0xFF) % 256 * 256 + (v &&& 0xFF) % 256 = v % 65536 := by
  have e1 := Nat.and_pow_two_sub_one_eq_mod (v >>> 8) 8
  have e2 := Nat.and_pow_two_sub_one_eq_mod v 8
  norm_num at e1 e2
  rw [e1, e2, Nat.shiftRight_eq_div_pow]
  omega

theorem regWord_lt (s : RegFile) (r : Nat) : regWord s r < 65536 := by
  unfold regWord
  omega

theorem waitForDreq_regFile (n : Nat) (d : Dev RegFile) :
    waitForDreq regFileChip (n + 1) d =
      (Except.ok (), { d with trace := d.trace ++ [Event.digitalRead true] }) := by
  simp [waitForDreq, bind_apply, digitalRead_apply, pure_apply, regFileChip]

theorem writeSCI_regFile (n r v : Nat) (d : Dev RegFile) :
    (writeSCI regFileChip (n + 1) r v d).1 = Except.ok () ∧
      ∀ q, regWord (writeSCI regFileChip (n + 1) r v d).2.chip q =
        if q = r then v % 65536 else regWord d.chip q := by
  simp only [writeSCI, bind_apply, waitForDreq_regFile, digitalWrite_apply, transfer_apply]
  refine ⟨by simp [regFileChip], ?_⟩
  intro q
  by_cases hq : q = r
  · subst hq
    simp [regFileChip, regWord, bytes_of_word]
  · simp [regFileChip, regWord, hq, Function.update_noteq hq]

theorem readSCI_regFile (n r : Nat) (d : Dev RegFile) :
    (readSCI regFileChip (n + 1) r d).1 = Except.ok (regWord d.chip r) ∧
      ∀ q, regWord (readSCI regFileChip (n + 1) r d).2.chip q = regWord d.chip q := by
  simp only [readSCI, bind_apply, waitForDreq_regFile, digitalWrite_apply, transfer_apply,
    pure_apply]
  refine ⟨?_, ?_⟩
  · simp [regFileChip, regWord,
      word_of_bytes_shift _ _ (Nat.mod_lt _ (by decide)) (Nat.mod_lt _ (by decide))]
  · intro q
    simp [regFileChip, regWord]

/-- C5: on the register-file chip, for every register address `r` and every
16-bit value `v`, `readRegister(r)` performed after `writeRegister(r, v)`
returns exactly `v`. -/
theorem register_round_trip (fuel r v : Nat) (d : Dev RegFile)
    (hv : v < 65536) (hfuel : 0 < fuel) :
    ((writeRegister regFileChip fuel r v >>= fun _ => readRegister regFileChip fuel r) d).1 =
      Except.ok v := by
  obtain ⟨n, rfl⟩ : ∃ n, fuel = n + 1 := ⟨fuel - 1, by omega⟩
  have hw := writeSCI_regFile n r v d
  have hr := readSCI_regFile n r (writeSCI regFileChip (n + 1) r v d).2
  rw [writeRegister, readRegister, bind_ok _ hw.1, hr.1, hw.2 r, if_pos rfl,
    Nat.mod_eq_of_lt hv]

theorem register_round_trip_witness :
    ((writeRegister regFileChip 1 0x0B 0x2828 >>= fun _ => readRegister regFileChip 1 0x0B)
      (Dev.init (RegFile.ofWords (fun _ => 0)))).1 = Except.ok 0x2828 :=
  register_round_trip 1 0x0B 0x2828 _ (by decide) (by decide)

theorem clearBits_or_bit (m j : Nat) (hj : j < 16) :
    clearBits (m ||| 2 ^ j) (2 ^ j) = clearBits m (2 ^ j) := by
  apply Nat.eq_of_testBit_eq
  intro i
  simp only [clearBits, Nat.testBit_and, Nat.testBit_or, Nat.testBit_xor,
    show (0xFFFF : Nat) = 2 ^ 16 - 1 by norm_num, Nat.testBit_two_pow_sub_one,
    Nat.testBit_two_pow]
  by_cases hi : j = i
  · subst hi
    simp [hj]
  · simp [hi]

theorem clearBits_of_bit_clear (m j : Nat) (hm : m < 65536) (h : m &&& 2 ^ j = 0) :
    clearBits m (2 ^ j) = m := by
  apply Nat.eq_of_testBit_eq
  intro i
  simp only [clearBits, Nat.testBit_and, Nat.testBit_xor,
    show (0xFFFF : Nat) = 2 ^ 16 - 1 by norm_num, Nat.testBit_two_pow_sub_one,
    Nat.testBit_two_pow]
  by_cases hi : j = i
  · subst hi
    have hb : (m &&& 2 ^ j).testBit j = false := by rw [h, Nat.zero_testBit]
    rw [Nat.testBit_and, Nat.testBit_two_pow_self, Bool.and_true] at hb
    simp [hb]
  · by_cases h16 : i < 16
    · simp [hi, h16]
    · have hlt : m < 2 ^ i :=
        Nat.lt_of_lt_of_le hm
          (by
            have := Nat.pow_le_pow_right (show 0 < 2 by decide) (Nat.le_of_not_lt h16)
            norm_num at this ⊢
            exact this)
      simp [Nat.testBit_lt_two_pow hlt]

theorem or_bit_lt (m j : Nat) (hm : m < 65536) (hj : j < 16) : m ||| 2 ^ j < 65536 := by
  have h2 : 2 ^ j < 2 ^ 16 := Nat.pow_lt_pow_right (by decide) hj
  exact Nat.or_lt_two_pow (show m < 2 ^ 16 by norm_num; exact hm) h2

theorem clearBits_le (m b : Nat) : clearBits m b ≤ m := Nat.and_le_left

theorem regSpec_pure {α : Type} (a : α) (w : Nat → Nat) :
    RegSpec (pure a : M RegFile α) w a w := by
  intro d hd
  rw [pure_apply]
  exact ⟨rfl, hd⟩

theorem regSpec_bind {α β : Type} {m : M RegFile α} {f : α → M RegFile β} {a : α} {b : β}
    {w w1 w2 : Nat → Nat} (h1 : RegSpec m w a w1) (h2 : RegSpec (f a) w1 b w2) :
    RegSpec (m >>= f) w b w2 := by
  intro d hd
  rw [bind_ok f (h1 d hd).1]
  exact h2 _ (h1 d hd).2

theorem regSpec_readSCI (fuel r : Nat) (hfuel : 0 < fuel) (w : Nat → Nat) :
    RegSpec (readSCI regFileChip fuel r) w (w r) w := by
  obtain ⟨n, rfl⟩ : ∃ n, fuel = n + 1 := ⟨fuel - 1, by omega⟩
  intro d hd
  have h := readSCI_regFile n r d
  refine ⟨by rw [h.1, hd r], ?_⟩
  intro q
  rw [h.2 q, hd q]

theorem regSpec_writeSCI (fuel r v : Nat) (hfuel : 0 < fuel) (w : Nat → Nat) :
    RegSpec (writeSCI regFileChip fuel r v) w () (Function.update w r (v % 65536)) := by
  obtain ⟨n, rfl⟩ : ∃ n, fuel = n + 1 := ⟨fuel - 1, by omega⟩
  intro d hd
  have h := writeSCI_regFile n r v d
  refine ⟨h.1, ?_⟩
  intro q
  rw [h.2 q]
  by_cases hq : q = r
  · subst hq
    simp
  · simp [hq, hd q]

theorem regSpec_setPlaying (b : Bool) (w : Nat → Nat) :
    RegSpec (setPlaying b : M RegFile Unit) w () w := by
  intro d hd
  exact ⟨rfl, hd⟩

theorem regSpec_congr {α : Type} {m : M RegFile α} {a b : α} {w w1 w2 : Nat → Nat}
    (h : RegSpec m w a w1) (hab : a = b) (hw : w1 = w2) : RegSpec m w b w2 := by
  subst hab
  subst hw
  exact h

theorem set_clear_cycle (reg j b : Nat) (hj : j < 16) (hb : b = 2 ^ j) (d : Dev RegFile)
    (x y : M RegFile Unit)
    (hx : RegSpec x (regWord d.chip) ()
      (Function.update (regWord d.chip) reg (regWord d.chip reg ||| b)))
    (hy : ∀ w, w reg < 65536 → RegSpec y w () (Function.update w reg (clearBits (w reg) b))) :
    ((x >>= fun _ => y) d).1 = Except.ok () ∧
    regWord ((x >>= fun _ => y) d).2.chip reg = clearBits (regWord d.chip reg) b ∧
    (regWord d.chip reg &&& b = 0 →
      regWord ((x >>= fun _ => y) d).2.chip reg = regWord d.chip reg) := by
  subst hb
  have hm := regWord_lt d.chip reg
  have hy2 := hy (Function.update (regWord d.chip) reg (regWord d.chip reg ||| 2 ^ j))
    (by rw [Function.update_same]; exact or_bit_lt _ _ hm hj)
  have h := @regSpec_bind Unit Unit x (fun _ => y) () () _ _ _ hx hy2 d (fun _ => rfl)
  have hv : regWord ((x >>= fun _ => y) d).2.chip reg =
      clearBits (regWord d.chip reg) (2 ^ j) := by
    rw [h.2 reg, Function.update_same, Function.update_same, clearBits_or_bit _ _ hj]
  refine ⟨h.1, hv, ?_⟩
  intro h0
  rw [hv, clearBits_of_bit_clear _ _ hm h0]

theorem regSpec_setBit (fuel reg j b : Nat) (hfuel : 0 < fuel) (hj : j < 16) (hb : b = 2 ^ j)
    (w : Nat → Nat) (hw : w reg < 65536) :
    RegSpec (readSCI regFileChip fuel reg >>= fun m => writeSCI regFileChip fuel reg (m ||| b))
      w () (Function.update w reg (w reg ||| b)) := by
  subst hb
  refine regSpec_congr (regSpec_bind (regSpec_readSCI fuel reg hfuel w)
    (regSpec_writeSCI fuel reg _ hfuel w)) rfl ?_
  rw [Nat.mod_eq_of_lt (or_bit_lt _ _ hw hj)]

theorem regSpec_clearBit (fuel reg b : Nat) (hfuel : 0 < fuel) (w : Nat → Nat)
    (hw : w reg < 65536) :
    RegSpec (readSCI regFileChip fuel reg >>= fun m =>
        writeSCI regFileChip fuel reg (clearBits m b))
      w () (Function.update w reg (clearBits (w reg) b)) := by
  refine regSpec_congr (regSpec_bind (regSpec_readSCI fuel reg hfuel w)
    (regSpec_writeSCI fuel reg _ hfuel w)) rfl ?_
  rw [Nat.mod_eq_of_lt (Nat.lt_of_le_of_lt (clearBits_le _ _) hw)]

theorem regSpec_startPlayback (fuel : Nat) (hfuel : 0 < fuel) (w : Nat → Nat)
    (hw : w R.SCI_MODE < 65536) :
    RegSpec (startPlayback regFileChip R fuel) w ()
      (Function.update w R.SCI_MODE (w R.SCI_MODE ||| 0x0800)) := by
  rw [startPlayback]
  refine regSpec_congr (regSpec_bind (regSpec_readSCI fuel _ hfuel _)
    (regSpec_bind (regSpec_writeSCI fuel _ _ hfuel _) (regSpec_setPlaying true _))) rfl ?_
  have h2 := or_bit_lt (w R.SCI_MODE) 11 hw (by decide)
  norm_num at h2
  rw [Nat.mod_eq_of_lt h2]

theorem regSpec_stopPlayback (fuel : Nat) (hfuel : 0 < fuel) (w : Nat → Nat)
    (hw : w R.SCI_MODE < 65536) :
    RegSpec (stopPlayback regFileChip R fuel) w ()
      (Function.update w R.SCI_MODE (clearBits (w R.SCI_MODE) 0x0800)) := by
  rw [stopPlayback]
  refine regSpec_congr (regSpec_bind (regSpec_readSCI fuel _ hfuel _)
    (regSpec_bind (regSpec_writeSCI fuel _ _ hfuel _) (regSpec_setPlaying false _))) rfl ?_
  rw [Nat.mod_eq_of_lt (Nat.lt_of_le_of_lt (clearBits_le _ _) hw)]

theorem regSpec_pause (fuel : Nat) (hfuel : 0 < fuel) (w : Nat → Nat)
    (hw : w R.SCI_MODE < 65536) :
    RegSpec (pausePlayback regFileChip R fuel true) w ()
      (Function.update w R.SCI_MODE (w R.SCI_MODE ||| 0x0008)) := by
  rw [pausePlayback, if_pos rfl]
  exact regSpec_setBit fuel _ 3 _ hfuel (by decide) (by norm_num) _ hw

theorem regSpec_resume (fuel : Nat) (hfuel : 0 < fuel) (w : Nat → Nat)
    (hw : w R.SCI_MODE < 65536) :
    RegSpec (pausePlayback regFileChip R fuel false) w ()
      (Function.update w R.SCI_MODE (clearBits (w R.SCI_MODE) 0x0008)) := by
  rw [pausePlayback, if_neg (by decide)]
  exact regSpec_clearBit fuel _ _ hfuel _ hw

/-- C8 (amended): on the register-file chip `startPlayback` followed by
`stopPlayback` leaves the mode register equal to its initial value `m` with
bit 0x0800 cleared, and `pausePlayback(true)` followed by `pausePlayback(false)`
leaves it equal to `m` with bit 0x0008 cleared; so the cycle restores `m`
whenever the bit was clear in `m` before. -/
theorem mode_bit_cycle (fuel : Nat) (d : Dev RegFile) (hfuel : 0 < fuel) :
    (((startPlayback regFileChip R fuel >>= fun _ => stopPlayback regFileChip R fuel) d).1 =
        Except.ok () ∧
      regWord ((startPlayback regFileChip R fuel >>= fun _ =>
          stopPlayback regFileChip R fuel) d).2.chip R.SCI_MODE =
        clearBits (regWord d.chip R.SCI_MODE) 0x0800 ∧
      (regWord d.chip R.SCI_MODE &&& 0x0800 = 0 →
        regWord ((startPlayback regFileChip R fuel >>= fun _ =>
          stopPlayback regFileChip R fuel) d).2.chip R.SCI_MODE = regWord d.chip R.SCI_MODE)) ∧
    (((pausePlayback regFileChip R fuel true >>= fun _ =>
          pausePlayback regFileChip R fuel false) d).1 = Except.ok () ∧
      regWord ((pausePlayback regFileChip R fuel true >>= fun _ =>
          pausePlayback regFileChip R fuel false) d).2.chip R.SCI_MODE =
        clearBits (regWord d.chip R.SCI_MODE) 0x0008 ∧
      (regWord d.chip R.SCI_MODE &&& 0x0008 = 0 →
        regWord ((pausePlayback regFileChip R fuel true >>= fun _ =>
          pausePlayback regFileChip R fuel false) d).2.chip R.SCI_MODE =
          regWord d.chip R.SCI_MODE)) :=
  ⟨set_clear_cycle R.SCI_MODE 11 0x0800 (by decide) (by norm_num) d _ _
      (regSpec_startPlayback R fuel hfuel _ (regWord_lt _ _))
      (fun w hw => regSpec_stopPlayback R fuel hfuel w hw),
    set_clear_cycle R.SCI_MODE 3 0x0008 (by decide) (by norm_num) d _ _
      (regSpec_pause R fuel hfuel _ (regWord_lt _ _))
      (fun w hw => regSpec_resume R fuel hfuel w hw)⟩

theorem mode_bit_cycle_witness :
    regWord ((startPlayback regFileChip datasheetRegs 1 >>= fun _ =>
        stopPlayback regFileChip datasheetRegs 1)
        (Dev.init (RegFile.ofWords (fun _ => 0x4002)))).2.chip 0 = 0x4002 :=
  (mode_bit_cycle datasheetRegs 1 (Dev.init (RegFile.ofWords (fun _ => 0x4002)))
    (by decide)).1.2.2 (by decide)

/-- C8 as stated fails when the bit is already set: from the mode word 0x0800
`startPlayback` then `stopPlayback` leaves 0, and from 0x0008 the pause cycle
leaves 0. -/
theorem mode_bit_cycle_counterexample :
    regWord (Dev.init (RegFile.ofWords (fun _ => 0x0800))).chip datasheetRegs.SCI_MODE =
      0x0800 ∧
    regWord ((startPlayback regFileChip datasheetRegs 1 >>= fun _ =>
        stopPlayback regFileChip datasheetRegs 1)
        (Dev.init (RegFile.ofWords (fun _ => 0x0800)))).2.chip datasheetRegs.SCI_MODE = 0 ∧
    regWord ((pausePlayback regFileChip datasheetRegs 1 true >>= fun _ =>
        pausePlayback regFileChip datasheetRegs 1 false)
        (Dev.init (RegFile.ofWords (fun _ => 0x0008)))).2.chip datasheetRegs.SCI_MODE = 0 := by
  refine ⟨by decide, ?_, ?_⟩
  · rw [(set_clear_cycle datasheetRegs.SCI_MODE 11 0x0800 (by decide) (by norm_num)
      (Dev.init (RegFile.ofWords (fun _ => 0x0800))) _ _
      (regSpec_startPlayback datasheetRegs 1 (by decide) _ (regWord_lt _ _))
      (fun w hw => regSpec_stopPlayback datasheetRegs 1 (by decide) w hw)).2.1]
    decide
  · rw [(set_clear_cycle datasheetRegs.SCI_MODE 3 0x0008 (by decide) (by norm_num)
      (Dev.init (RegFile.ofWords (fun _ => 0x0008))) _ _
      (regSpec_pause datasheetRegs 1 (by decide) _ (regWord_lt _ _))
      (fun w hw => regSpec_resume datasheetRegs 1 (by decide) w hw)).2.1]
    decide

theorem or_bit_and_bit (m j : Nat) : (m ||| 2 ^ j) &&& 2 ^ j ≠ 0 := by
  intro h0
  have ht : ((m ||| 2 ^ j) &&& 2 ^ j).testBit j = true := by
    rw [Nat.testBit_and, Nat.testBit_or, Nat.testBit_two_pow_self]
    simp
  rw [h0, Nat.zero_testBit] at ht
  cases ht

theorem regSpec_setGPIO (fuel pin : Nat) (hfuel : 0 < fuel) (hpin : pin ≤ 11) (w : Nat → Nat)
    (hw : w R.SCI_HDAT0 < 65536) :
    RegSpec ( setGPIO regFileChip R fuel pin true) w ()
      (Function.update w R.SCI_HDAT0 (w R.SCI_HDAT0 ||| 2 ^ pin)) := by
  rw [ setGPIO, if_neg (by omega)]
  simp only [if_true, Nat.one_shiftLeft]
  exact regSpec_setBit fuel _ pin _ hfuel (by omega) rfl _ hw

theorem regSpec_getGPIO (fuel pin : Nat) (hfuel : 0 < fuel) (hpin : pin ≤ 11) (w : Nat → Nat) :
    RegSpec ( getGPIO regFileChip R fuel pin) w (decide (w R.SCI_HDAT1 &&& 2 ^ pin ≠ 0)) w := by
  rw [ getGPIO, if_neg (by omega)]
  simp only [Nat.one_shiftLeft]
  exact regSpec_bind (regSpec_readSCI fuel _ hfuel w) (regSpec_pure _ w)

theorem gpio_run (fuel pin : Nat) (d : Dev RegFile) (hpin : pin ≤ 11) (hfuel : 0 < fuel) :
    (( setGPIO regFileChip R fuel pin true >>= fun _ => getGPIO regFileChip R fuel pin) d).1 =
      Except.ok (decide (Function.update (regWord d.chip) R.SCI_HDAT0
        (regWord d.chip R.SCI_HDAT0 ||| 2 ^ pin) R.SCI_HDAT1 &&& 2 ^ pin ≠ 0)) :=
  (@regSpec_bind Unit Bool _ (fun _ => getGPIO regFileChip R fuel pin) () _ _ _ _
    ( regSpec_setGPIO R fuel pin hfuel hpin (regWord d.chip) (regWord_lt _ _))
    ( regSpec_getGPIO R fuel pin hfuel hpin _) d (fun _ => rfl)).1

/-- C7 fails on the code: on the register-file chip with the datasheet
addresses (HDAT0 = 8, HDAT1 = 9) and all registers zero, `setGPIO(5, true)`
puts bit 5 into `SCI_HDAT0` and leaves `SCI_HDAT1` at 0, and the following
`getGPIO(5)`, which reads `SCI_HDAT1`, returns false where a set/get pair on
one GPIO word returns true. -/
theorem gpio_set_get_fails :
    (( setGPIO regFileChip datasheetRegs 1 5 true >>= fun _ =>
        getGPIO regFileChip datasheetRegs 1 5)
      (Dev.init (RegFile.ofWords (fun _ => 0)))).1 = Except.ok false ∧
    regWord ( setGPIO regFileChip datasheetRegs 1 5 true
      (Dev.init (RegFile.ofWords (fun _ => 0)))).2.chip datasheetRegs.SCI_HDAT0 = 0x0020 ∧
    regWord ( setGPIO regFileChip datasheetRegs 1 5 true
      (Dev.init (RegFile.ofWords (fun _ => 0)))).2.chip datasheetRegs.SCI_HDAT1 = 0 := by
  have hset := ( regSpec_setGPIO datasheetRegs 1 5 (by decide) (by decide)
    (regWord (Dev.init (RegFile.ofWords (fun _ => 0))).chip) (regWord_lt _ _)
    (Dev.init (RegFile.ofWords (fun _ => 0))) (fun _ => rfl)).2
  refine ⟨?_, ?_, ?_⟩
  · rw [gpio_run datasheetRegs 1 5 _ (by decide) (by decide)]
    exact congrArg Except.ok (decide_eq_false (by decide))
  · rw [hset datasheetRegs.SCI_HDAT0]
    decide
  · rw [hset datasheetRegs.SCI_HDAT1]
    decide

end Registers

/-! ## Speed control -/

section Speed

variable {σ : Type} (hw : Chip σ) (R : RegMap) (fuel : Nat)

theorem speedValue_eq (percent : Nat) (h1 : 50 ≤ percent) (h2 : percent ≤ 200) :
    speedValue percent = (percent - 50) * 65535 / 150 := by
  interval_cases percent <;> rfl

theorem speedValue_mono (p q : Nat) (h1 : 50 ≤ p) (hpq : p ≤ q) (h2 : q ≤ 200) :
    speedValue p ≤ speedValue q := by
  rw [speedValue_eq p h1 (by omega), speedValue_eq q (by omega) h2]
  exact Nat.div_le_div_right (Nat.mul_le_mul_right _ (by omega))

/-- C9: for every percent in [50, 200], `setSpeed(percent)` returns having
written to chip-memory address 0x1E07 (`SCI_WRAMADDR := 0x1E07`, then
`SCI_WRAM := value`) the value `(percent - 50) * 65535 / 150` rounded down,
which fits 16 bits, followed by the enable word at 0x1E08; 50 gives 0, 200
gives 65535, 125 gives 32767, and the value does not decrease as percent
grows. -/
theorem setSpeed_linear (percent : Nat) (h1 : 50 ≤ percent) (h2 : percent ≤ 200)
    (hresp : Responsive hw fuel) :
    Runs (setSpeed hw R fuel percent) ()
      (writeFrames [(R.SCI_WRAMADDR, 0x1E07), (R.SCI_WRAM, (percent - 50) * 65535 / 150),
        (R.SCI_WRAMADDR, 0x1E08), (R.SCI_WRAM, 0x0001)]) ∧
    (percent - 50) * 65535 / 150 < 65536 ∧
    speedValue 50 = 0 ∧ speedValue 200 = 65535 ∧ speedValue 125 = 32767 ∧
    ∀ q, percent ≤ q → q ≤ 200 → speedValue percent ≤ speedValue q := by
  refine ⟨?_, by omega, rfl, rfl, rfl, fun q hq hq2 => speedValue_mono percent q h1 hq hq2⟩
  rw [setSpeed, writeRAM, writeRAM, speedValue_eq percent h1 h2]
  refine runs_congr (runs_bind (runs_bind (runs_writeSCI hw fuel hresp _ _)
    (runs_writeSCI hw fuel hresp _ _)) (runs_bind (runs_writeSCI hw fuel hresp _ _)
    (runs_writeSCI hw fuel hresp _ _))) rfl ?_
  simp only [writeFrames_cons, writeFrames_nil, List.append_nil, List.append_assoc]

theorem setSpeed_linear_witness :
    Runs (setSpeed idleChip datasheetRegs 1 150) ()
      (writeFrames [(0x07, 0x1E07), (0x06, 43690), (0x07, 0x1E08), (0x06, 0x0001)]) :=
  (setSpeed_linear idleChip datasheetRegs 1 150 (by decide) (by decide) (fun _ => rfl)).1

end Speed

/-! ## Recording mode -/

section Recording

/-- C10 fails on bit 0x2000: the mask of `startRecording` clears 0x5400 only,
so a mode word left by an A-law recording makes a later ADPCM recording write
0x6400, whose format bits are the ones the code assigns to A-law, and the mode
written differs from the one `startRecording(REC_ADPCM)` writes from a clean
mode word. -/
theorem startRecording_stale_format :
    recordMode 0x2000 RecordFormat.REC_ADPCM = 0x6400 ∧
    recordMode 0x2000 RecordFormat.REC_ADPCM &&& 0x3400 =
      formatBits RecordFormat.REC_G711_ALAW ∧
    recordMode 0x2000 RecordFormat.REC_ADPCM &&& 0x3400 ≠
      formatBits RecordFormat.REC_ADPCM ∧
    recordMode (recordMode 0 RecordFormat.REC_G711_ALAW) RecordFormat.REC_ADPCM ≠
      recordMode 0 RecordFormat.REC_ADPCM ∧
    busEvents ((startRecording regFileChip datasheetRegs 1 RecordFormat.REC_G711_ALAW 8000 >>=
        fun _ => stopRecording regFileChip datasheetRegs 1 >>=
        fun _ => startRecording regFileChip datasheetRegs 1 RecordFormat.REC_ADPCM 8000)
      (Dev.init (RegFile.ofWords (fun _ => 0)))).2.trace =
      [Event.digitalWrite Line.xcs false, Event.transfer 3, Event.transfer 0,
        Event.transfer 255, Event.transfer 255, Event.digitalWrite Line.xcs true] ++
      writeFrames [(0, 0x6400), (5, 0), (5, 8000)] ++
      [Event.digitalWrite Line.xcs false, Event.transfer 3, Event.transfer 0,
        Event.transfer 255, Event.transfer 255, Event.digitalWrite Line.xcs true] ++
      writeFrames [(0, 0x2400)] ++
      [Event.digitalWrite Line.xcs false, Event.transfer 3, Event.transfer 0,
        Event.transfer 255, Event.transfer 255, Event.digitalWrite Line.xcs true] ++
      writeFrames [(0, 0x6400), (5, 0), (5, 8000)] := by
  refine ⟨by decide, by decide, by decide, by decide, ?_⟩
  decide!

end Recording

/-! ## Gating of transactions by the ready line -/

section Gating

variable {σ : Type} (hw : Chip σ) (R : RegMap) (fuel : Nat)

theorem gatedFrom_append (a : Bool) (t u : List Event) :
    gatedFrom a (t ++ u) = (gatedFrom a t && gatedFrom (armedAfter a t) u) := by
  induction t generalizing a with
  | nil => simp [gatedFrom, armedAfter]
  | cons e t ih =>
    cases e with
    | digitalWrite l level =>
      cases l <;> simp [gatedFrom, armedAfter, ih, Bool.and_assoc]
    | _ => simp [gatedFrom, armedAfter, ih]

theorem armedAfter_append (a : Bool) (t u : List Event) :
    armedAfter a (t ++ u) = armedAfter (armedAfter a t) u := by
  induction t generalizing a with
  | nil => simp [armedAfter]
  | cons e t ih =>
    cases e with
    | digitalWrite l level =>
      cases l <;> simp [armedAfter, ih]
    | _ => simp [armedAfter, ih]

theorem gatedFrom_of_false (a : Bool) (u : List Event) (h : gatedFrom false u = true) :
    gatedFrom a u = true := by
  induction u generalizing a with
  | nil => rfl
  | cons e t ih =>
    cases a with
    | false => exact h
    | true =>
      cases e with
      | digitalWrite l level =>
        cases l
        · simp_all [gatedFrom]
        · simp_all [gatedFrom]
        · simp only [gatedFrom] at h ⊢
          exact ih _ h
        · simp only [gatedFrom] at h ⊢
          exact ih _ h
      | digitalRead level =>
        cases level
        · simp only [gatedFrom, Bool.false_or] at h ⊢
          exact ih _ h
        · simp_all [gatedFrom]
      | transfer out => simp_all [gatedFrom]
      | pinMode l o =>
        simp only [gatedFrom] at h ⊢
        exact ih _ h
      | delay ms =>
        simp only [gatedFrom] at h ⊢
        exact ih _ h
      | delayMicroseconds us =>
        simp only [gatedFrom] at h ⊢
        exact ih _ h
      | spiBegin =>
        simp only [gatedFrom] at h ⊢
        exact ih _ h
      | spiSetDataMode =>
        simp only [gatedFrom] at h ⊢
        exact ih _ h
      | spiSetBitOrder =>
        simp only [gatedFrom] at h ⊢
        exact ih _ h

theorem gated_snoc (t : List Event) (e : Event) (h : Gated t)
    (he : gatedFrom false [e] = true) : Gated (t ++ [e]) := by
  unfold Gated at *
  rw [gatedFrom_append, h, Bool.true_and]
  exact gatedFrom_of_false _ _ he

theorem gated_snoc_armed (t : List Event) (e : Event) (h : Gated t) (ha : Armed t) :
    Gated (t ++ [e]) := by
  unfold Gated Armed at *
  rw [gatedFrom_append, h, ha, Bool.true_and]
  cases e with
  | digitalWrite l level => cases l <;> simp [gatedFrom]
  | _ => simp [gatedFrom]

theorem armed_snoc_high (t : List Event) : Armed (t ++ [Event.digitalRead true]) := by
  unfold Armed
  rw [armedAfter_append]
  simp [armedAfter]

theorem safe_pure {α : Type} (a : α) : Safe (pure a : M σ α) := by
  intro d h
  rw [pure_apply]
  exact h

theorem safe_fault {α : Type} (e : Fault) : Safe (fault e : M σ α) := by
  intro d h
  exact h

theorem safe_bind {α β : Type} {m : M σ α} {f : α → M σ β} (h1 : Safe m)
    (h2 : ∀ a, Safe (f a)) : Safe (m >>= f) := by
  intro d h
  rw [bind_apply]
  have hm := h1 d h
  rcases hr : m d with ⟨r, d1⟩
  rw [hr] at hm
  cases r with
  | ok a => exact h2 a d1 hm
  | error e => exact hm

theorem safe_ite {α : Type} (c : Prop) [Decidable c] {x y : M σ α} (hx : Safe x)
    (hy : Safe y) : Safe (if c then x else y) := by
  by_cases h : c
  · rw [if_pos h]
    exact hx
  · rw [if_neg h]
    exact hy

theorem safe_index {α : Type} (xs : List α) (i : Nat) : Safe (index xs i : M σ α) := by
  intro d h
  unfold index
  cases xs[i]? with
  | none => exact h
  | some x => exact h

theorem safe_transfer (out : Nat) : Safe (transfer hw out) := by
  intro d h
  rw [transfer_apply]
  exact gated_snoc _ _ h rfl

theorem safe_digitalRead : Safe (digitalRead hw) := by
  intro d h
  rw [digitalRead_apply]
  refine gated_snoc _ _ h ?_
  cases (hw.read d.chip).1 <;> rfl

theorem safe_delay (ms : Nat) : Safe (delay ms : M σ Unit) := by
  intro d h
  rw [delay_apply]
  exact gated_snoc _ _ h rfl

theorem safe_delayMicroseconds (us : Nat) : Safe (delayMicroseconds us : M σ Unit) := by
  intro d h
  rw [delayMicroseconds_apply]
  exact gated_snoc _ _ h rfl

theorem safe_pinMode (l : Line) (o : Bool) : Safe (pinMode l o : M σ Unit) := by
  intro d h
  exact gated_snoc _ _ h rfl

theorem safe_spiSetup : Safe (spiSetup : M σ Unit) := by
  intro d h
  have e : (spiSetup d).2.trace =
      d.trace ++ [Event.spiBegin] ++ [Event.spiSetDataMode] ++ [Event.spiSetBitOrder] := by
    simp [spiSetup]
  rw [e]
  exact gated_snoc _ _ (gated_snoc _ _ (gated_snoc _ _ h rfl) rfl) rfl

theorem safe_setPlaying (b : Bool) : Safe (setPlaying b : M σ Unit) := by
  intro d h
  exact h

theorem safe_setRecording (b : Bool) : Safe (setRecording b : M σ Unit) := by
  intro d h
  exact h

theorem safe_getRecording : Safe (getRecording : M σ Bool) := by
  intro d h
  exact h

theorem safe_release (l : Line) : Safe (digitalWrite hw l true) := by
  intro d h
  rw [digitalWrite_apply]
  refine gated_snoc _ _ h ?_
  cases l <;> rfl

theorem safe_reset (level : Bool) : Safe (digitalWrite hw Line.reset level) := by
  intro d h
  rw [digitalWrite_apply]
  exact gated_snoc _ _ h rfl

theorem waitForDreq_gated (n : Nat) (d : Dev σ) (h : Gated d.trace) :
    Gated (waitForDreq hw n d).2.trace ∧
      ((waitForDreq hw n d).1 = Except.ok () →
        Armed (waitForDreq hw n d).2.trace ∧
        (waitForDreq hw n d).2.trace.getLast? = some (Event.digitalRead true)) := by
  induction n generalizing d with
  | zero =>
    refine ⟨h, ?_⟩
    intro hok
    simp [waitForDreq, fault] at hok
  | succ n ih =>
    cases hr : (hw.read d.chip).1 with
    | true =>
      simp only [waitForDreq, bind_apply, digitalRead_apply, hr, pure_apply, if_false,
        Bool.true_eq_false]
      exact ⟨gated_snoc _ _ h rfl, fun _ => ⟨armed_snoc_high _, List.getLast?_concat _⟩⟩
    | false =>
      simp only [waitForDreq, bind_apply, digitalRead_apply, hr, delayMicroseconds_apply,
        if_true]
      exact ih _ (gated_snoc _ _ (gated_snoc _ _ h rfl) rfl)

theorem safe_select (l : Line) {α : Type} (rest : M σ α) (hrest : Safe rest) :
    Safe (waitForDreq hw fuel >>= fun _ => digitalWrite hw l false >>= fun _ => rest) := by
  intro d h
  have hw1 := waitForDreq_gated hw fuel d h
  rw [bind_apply]
  rcases hr : waitForDreq hw fuel d with ⟨r, d1⟩
  rw [hr] at hw1
  cases r with
  | error e => exact hw1.1
  | ok a =>
    simp only [bind_apply, digitalWrite_apply]
    exact hrest _ (gated_snoc_armed _ _ hw1.1 (hw1.2 rfl).1)

theorem safe_ready_gate (l : Line) {α : Type} (x : α) (rest : M σ α) (hrest : Safe rest) :
    Safe (isReady hw >>= fun ready =>
      if ready = false then pure x else digitalWrite hw l false >>= fun _ => rest) := by
  intro d h
  rw [bind_apply, isReady, digitalRead_apply]
  cases hr : (hw.read d.chip).1 with
  | false =>
    simp only [if_true, pure_apply]
    exact gated_snoc _ _ h rfl
  | true =>
    simp only [Bool.true_eq_false, if_false, bind_apply, digitalWrite_apply]
    exact hrest _ (gated_snoc_armed _ _ (gated_snoc _ _ h rfl) (armed_snoc_high _))

theorem safe_writeSCI (reg value : Nat) : Safe (writeSCI hw fuel reg value) := by
  unfold writeSCI
  exact safe_select hw fuel Line.xcs _
    (safe_bind (safe_transfer hw _) fun _ =>
      safe_bind (safe_transfer hw _) fun _ =>
      safe_bind (safe_transfer hw _) fun _ =>
      safe_bind (safe_transfer hw _) fun _ => safe_release hw _)

theorem safe_readSCI (reg : Nat) : Safe (readSCI hw fuel reg) := by
  unfold readSCI
  exact safe_select hw fuel Line.xcs _
    (safe_bind (safe_transfer hw _) fun _ =>
      safe_bind (safe_transfer hw _) fun _ =>
      safe_bind (safe_transfer hw _) fun _ =>
      safe_bind (safe_transfer hw _) fun _ =>
      safe_bind (safe_release hw _) fun _ => safe_pure _)

theorem safe_writeSDI (data : Nat) : Safe (writeSDI hw fuel data) := by
  unfold writeSDI
  exact safe_select hw fuel Line.xdcs _
    (safe_bind (safe_transfer hw _) fun _ => safe_release hw _)

theorem safe_writeRAM (addr data : Nat) : Safe (writeRAM hw R fuel addr data) := by
  unfold writeRAM
  exact safe_bind (safe_writeSCI hw fuel _ _) fun _ => safe_writeSCI hw fuel _ _

theorem safe_readLoop (n i : Nat) (buf : List Nat) : Safe (readLoop hw n i buf) := by
  induction n generalizing i buf with
  | zero =>
    unfold readLoop
    exact safe_pure _
  | succ n ih =>
    unfold readLoop isReady
    refine safe_bind (safe_digitalRead hw) fun ready => safe_ite _ ?_ (safe_pure _)
    exact safe_bind (safe_transfer hw _) fun b => safe_ite _ (ih _ _) (safe_fault _)

theorem safe_writeLoop (data : List Nat) (n i : Nat) : Safe (writeLoop hw data n i) := by
  induction n generalizing i with
  | zero =>
    unfold writeLoop
    exact safe_pure _
  | succ n ih =>
    unfold writeLoop
    exact safe_bind (safe_index _ _) fun b => safe_bind (safe_transfer hw _) fun _ => ih _

theorem safe_pluginRun (val n : Nat) : Safe (pluginRun hw R fuel val n) := by
  induction n with
  | zero =>
    unfold pluginRun
    exact safe_pure _
  | succ n ih =>
    unfold pluginRun
    exact safe_bind (safe_writeSCI hw fuel _ _) fun _ => ih

theorem safe_pluginLiteral (plugin : List Nat) (n i : Nat) :
    Safe (pluginLiteral hw R fuel plugin n i) := by
  induction n generalizing i with
  | zero =>
    unfold pluginLiteral
    exact safe_pure _
  | succ n ih =>
    unfold pluginLiteral
    exact safe_bind (safe_index _ _) fun w =>
      safe_bind (safe_writeSCI hw fuel _ _) fun _ => ih _

theorem safe_pluginLoop (plugin : List Nat) (len k i : Nat) :
    Safe (pluginLoop hw R fuel plugin len k i) := by
  induction k generalizing i with
  | zero =>
    unfold pluginLoop
    exact safe_fault _
  | succ k ih =>
    unfold pluginLoop
    refine safe_ite _ ?_ (safe_pure _)
    refine safe_bind (safe_index _ _) fun addr => safe_bind (safe_index _ _) fun n => ?_
    refine safe_ite _ ?_ ?_
    · exact safe_bind (safe_index _ _) fun val =>
        safe_bind (safe_writeSCI hw fuel _ _) fun _ =>
        safe_bind (safe_pluginRun hw R fuel _ _) fun _ => ih _
    · exact safe_bind (safe_writeSCI hw fuel _ _) fun _ =>
        safe_bind (safe_pluginLiteral hw R fuel _ _ _) fun i3 => ih _

theorem safe_loadPlugin (plugin : List Nat) (len : Nat) :
    Safe (loadPlugin hw R fuel plugin len) := by
  unfold loadPlugin
  exact safe_pluginLoop hw R fuel _ _ _ _

theorem safe_appWords (image : List Nat) (n pos : Nat) :
    Safe (appWords hw R fuel image n pos) := by
  induction n generalizing pos with
  | zero =>
    unfold appWords
    exact safe_pure _
  | succ n ih =>
    unfold appWords
    exact safe_bind (safe_index _ _) fun hi => safe_bind (safe_index _ _) fun lo =>
      safe_bind (safe_writeSCI hw fuel _ _) fun _ => ih _

theorem safe_appLoop (image : List Nat) (len k pos : Nat) :
    Safe (appLoop hw R fuel image len k pos) := by
  induction k generalizing pos with
  | zero =>
    unfold appLoop
    exact safe_fault _
  | succ k ih =>
    unfold appLoop
    refine safe_ite _ ?_ (safe_pure _)
    refine safe_bind (safe_index _ _) fun type => safe_ite _ (safe_pure _) ?_
    refine safe_bind (safe_index _ _) fun l1 => safe_bind (safe_index _ _) fun l0 =>
      safe_bind (safe_index _ _) fun a1 => safe_bind (safe_index _ _) fun a0 => ?_
    refine safe_ite _ (safe_writeSCI hw fuel _ _) ?_
    exact safe_bind (safe_writeSCI hw fuel _ _) fun _ =>
      safe_bind (safe_appWords hw R fuel _ _ _) fun p => ih _

theorem safe_loadApplication (image : List Nat) (len : Nat) :
    Safe (loadApplication hw R fuel image len) := by
  unfold loadApplication
  exact safe_bind (safe_index _ _) fun b0 => safe_ite _ (safe_pure _)
    (safe_bind (safe_index _ _) fun b1 => safe_ite _ (safe_pure _)
      (safe_bind (safe_index _ _) fun b2 => safe_ite _ (safe_pure _)
        (safe_appLoop hw R fuel _ _ _ _)))

theorem safe_getRecordingData (buf : List Nat) (len : Nat) :
    Safe (getRecordingData hw buf len) := by
  unfold getRecordingData
  refine safe_bind safe_getRecording fun r => safe_ite _ (safe_pure _) ?_
  exact safe_ready_gate hw Line.xdcs _ _
    (safe_bind (safe_readLoop hw _ _ _) fun r => safe_bind (safe_release hw _) fun _ =>
      safe_pure _)

theorem safe_readData (buffer : List Nat) (len : Nat) : Safe (readData hw buffer len) := by
  unfold readData
  exact safe_ready_gate hw Line.xdcs _ _
    (safe_bind (safe_readLoop hw _ _ _) fun r => safe_bind (safe_release hw _) fun _ =>
      safe_pure _)

theorem safe_writeData (data : List Nat) (len : Nat) : Safe (writeData hw data len) := by
  unfold writeData
  exact safe_ready_gate hw Line.xdcs _ _
    (safe_bind (safe_writeLoop hw _ _ _) fun _ => safe_release hw _)

theorem safe_hardReset :
    Safe (hardReset hw : M σ _) := by
  unfold hardReset
  exact safe_bind (safe_reset hw _) fun _ =>
    safe_bind (safe_delay _) fun _ =>
    safe_bind (safe_reset hw _) fun _ =>
    safe_bind (safe_delay _) fun _ =>
    safe_bind (safe_setPlaying _) fun _ =>
    safe_setRecording _

theorem safe_softReset :
    Safe (softReset hw R fuel : M σ _) := by
  unfold softReset
  exact safe_bind (safe_readSCI hw fuel _) fun _ =>
    safe_bind (safe_writeSCI hw fuel _ _) fun _ =>
    safe_bind (safe_delay _) fun _ =>
    safe_bind (safe_readSCI hw fuel _) fun _ =>
    safe_bind (safe_writeSCI hw fuel _ _) fun _ =>
    safe_bind (safe_delay _) fun _ =>
    safe_bind (safe_setPlaying _) fun _ =>
    safe_setRecording _

theorem safe_isReady :
    Safe (isReady hw : M σ _) := by
  unfold isReady
  exact safe_digitalRead hw

theorem safe_startPlayback :
    Safe (startPlayback hw R fuel : M σ _) := by
  unfold startPlayback
  exact safe_bind (safe_readSCI hw fuel _) fun _ =>
    safe_bind (safe_writeSCI hw fuel _ _) fun _ =>
    safe_setPlaying _

theorem safe_stopPlayback :
    Safe (stopPlayback hw R fuel : M σ _) := by
  unfold stopPlayback
  exact safe_bind (safe_readSCI hw fuel _) fun _ =>
    safe_bind (safe_writeSCI hw fuel _ _) fun _ =>
    safe_setPlaying _

theorem safe_pausePlayback (pause : Bool) :
    Safe (pausePlayback hw R fuel pause : M σ _) := by
  unfold pausePlayback
  exact safe_ite _ (safe_bind (safe_readSCI hw fuel _) fun _ => safe_writeSCI hw fuel _ _)
    (safe_bind (safe_readSCI hw fuel _) fun _ => safe_writeSCI hw fuel _ _)

theorem safe_setVolume (left right : Nat) :
    Safe (setVolume hw R fuel left right : M σ _) := by
  unfold setVolume
  exact safe_writeSCI hw fuel _ _

theorem safe_getDecodeTime :
    Safe (getDecodeTime hw R fuel : M σ _) := by
  unfold getDecodeTime
  exact safe_readSCI hw fuel _

theorem safe_startRecording (format : RecordFormat) (sampleRate : Nat) :
    Safe (startRecording hw R fuel format sampleRate : M σ _) := by
  unfold startRecording
  exact safe_bind (safe_readSCI hw fuel _) fun _ =>
    safe_bind (safe_writeSCI hw fuel _ _) fun _ =>
    safe_bind (safe_writeSCI hw fuel _ _) fun _ =>
    safe_bind (safe_writeSCI hw fuel _ _) fun _ =>
    safe_setRecording _

theorem safe_stopRecording :
    Safe (stopRecording hw R fuel : M σ _) := by
  unfold stopRecording
  exact safe_bind (safe_readSCI hw fuel _) fun _ =>
    safe_bind (safe_writeSCI hw fuel _ _) fun _ =>
    safe_setRecording _

theorem safe_setBass (bassBoost freqLimit : Nat) :
    Safe (setBass hw R fuel bassBoost freqLimit : M σ _) := by
  unfold setBass
  exact safe_writeSCI hw fuel _ _

theorem safe_setTreble (trebleBoost freqLimit : Nat) :
    Safe (setTreble hw R fuel trebleBoost freqLimit : M σ _) := by
  unfold setTreble
  exact safe_bind (safe_readSCI hw fuel _) fun _ =>
    safe_writeSCI hw fuel _ _

theorem safe_setEqualizer5Band (gains : List Int) :
    Safe (setEqualizer5Band hw R fuel gains : M σ _) := by
  unfold setEqualizer5Band
  exact safe_bind (safe_index _ _) fun _ =>
    safe_bind (safe_writeRAM hw R fuel _ _) fun _ =>
    safe_bind (safe_index _ _) fun _ =>
    safe_bind (safe_writeRAM hw R fuel _ _) fun _ =>
    safe_bind (safe_index _ _) fun _ =>
    safe_bind (safe_writeRAM hw R fuel _ _) fun _ =>
    safe_bind (safe_index _ _) fun _ =>
    safe_bind (safe_writeRAM hw R fuel _ _) fun _ =>
    safe_bind (safe_index _ _) fun _ =>
    safe_bind (safe_writeRAM hw R fuel _ _) fun _ =>
    safe_bind (safe_readSCI hw fuel _) fun _ =>
    safe_writeSCI hw fuel _ _

theorem safe_setEarSpeaker (enable : Bool) :
    Safe (setEarSpeaker hw R fuel enable : M σ _) := by
  unfold setEarSpeaker
  exact safe_ite _ (safe_writeRAM hw R fuel _ _) (safe_writeRAM hw R fuel _ _)

theorem safe_setSpeed (percent : Nat) :
    Safe (setSpeed hw R fuel percent : M σ _) := by
  unfold setSpeed
  exact safe_bind (safe_writeRAM hw R fuel _ _) fun _ =>
    safe_writeRAM hw R fuel _ _

theorem safe_setADMixer (gain : Nat) :
    Safe (setADMixer hw R fuel gain : M σ _) := by
  unfold setADMixer
  exact safe_bind (safe_writeRAM hw R fuel _ _) fun _ =>
    safe_writeRAM hw R fuel _ _

theorem safe_setPCMMixer (volume : Nat) :
    Safe (setPCMMixer hw R fuel volume : M σ _) := by
  unfold setPCMMixer
  exact safe_bind (safe_writeRAM hw R fuel _ _) fun _ =>
    safe_writeRAM hw R fuel _ _

theorem safe_activatePlugin (startAddr : Nat) :
    Safe (activatePlugin hw R fuel startAddr : M σ _) := by
  unfold activatePlugin
  exact safe_writeSCI hw fuel _ _

theorem safe_deactivatePlugin :
    Safe (deactivatePlugin hw R fuel : M σ _) := by
  unfold deactivatePlugin
  exact safe_writeSCI hw fuel _ _

theorem safe_setClockFrequency (freq : Nat) :
    Safe (setClockFrequency hw R fuel freq : M σ _) := by
  unfold setClockFrequency
  exact safe_ite _ (safe_writeSCI hw fuel _ _) (safe_writeSCI hw fuel _ _)

theorem safe_setSampleRate (rate : Nat) :
    Safe (setSampleRate hw R fuel rate : M σ _) := by
  unfold setSampleRate
  exact safe_writeSCI hw fuel _ _

theorem safe_setGPIO (pin : Nat) (state : Bool) :
    Safe ( setGPIO hw R fuel pin state : M σ _) := by
  unfold setGPIO
  exact safe_ite _ (safe_pure _)
    (safe_bind (safe_readSCI hw fuel _) fun _ => safe_ite _ (safe_writeSCI hw fuel _ _) (safe_writeSCI hw fuel _ _))

theorem safe_getGPIO (pin : Nat) :
    Safe ( getGPIO hw R fuel pin : M σ _) := by
  unfold getGPIO
  exact safe_ite _ (safe_pure _) (safe_bind (safe_readSCI hw fuel _) fun _ => safe_pure _)

theorem safe_readRegister (reg : Nat) :
    Safe (readRegister hw fuel reg : M σ _) := by
  unfold readRegister
  exact safe_readSCI hw fuel _

theorem safe_writeRegister (reg value : Nat) :
    Safe (writeRegister hw fuel reg value : M σ _) := by
  unfold writeRegister
  exact safe_writeSCI hw fuel _ _

theorem safe_getChipID :
    Safe (getChipID hw R fuel : M σ _) := by
  unfold getChipID
  exact safe_bind (safe_readSCI hw fuel _) fun _ =>
    safe_bind (safe_readSCI hw fuel _) fun _ =>
    safe_pure _

theorem safe_begin : Safe (begin hw R fuel) := by
  unfold begin
  exact safe_bind (safe_pinMode _ _) fun _ =>
    safe_bind (safe_pinMode _ _) fun _ =>
    safe_bind (safe_pinMode _ _) fun _ =>
    safe_bind (safe_pinMode _ _) fun _ =>
    safe_bind (safe_release hw _) fun _ =>
    safe_bind (safe_release hw _) fun _ =>
    safe_bind (safe_reset hw _) fun _ =>
    safe_bind (safe_spiSetup) fun _ =>
    safe_bind (safe_hardReset hw) fun _ =>
    safe_bind (safe_setClockFrequency hw R fuel _) fun _ =>
    safe_setVolume hw R fuel _ _

theorem safe_ignore {α : Type} (m : M σ α) (h : Safe m) : Safe (ignore m) := by
  unfold ignore
  exact safe_bind h fun _ => safe_pure _

theorem safe_exec (call : Call) : Safe (exec hw R fuel call) := by
  cases call with
  | begin => exact safe_begin hw R fuel
  | softReset => exact safe_softReset hw R fuel
  | hardReset => exact safe_hardReset hw
  | isReady => exact safe_ignore _ (safe_isReady hw)
  | startPlayback => exact safe_startPlayback hw R fuel
  | stopPlayback => exact safe_stopPlayback hw R fuel
  | pausePlayback pause => exact safe_pausePlayback hw R fuel pause
  | setVolume left right => exact safe_setVolume hw R fuel left right
  | getDecodeTime => exact safe_ignore _ (safe_getDecodeTime hw R fuel)
  | startRecording format sampleRate => exact safe_startRecording hw R fuel format sampleRate
  | stopRecording => exact safe_stopRecording hw R fuel
  | isRecording => exact safe_ignore _ safe_getRecording
  | getRecordingData buf len => exact safe_ignore _ (safe_getRecordingData hw buf len)
  | setBass bassBoost freqLimit => exact safe_setBass hw R fuel bassBoost freqLimit
  | setTreble trebleBoost freqLimit => exact safe_setTreble hw R fuel trebleBoost freqLimit
  | setEqualizer5Band gains => exact safe_setEqualizer5Band hw R fuel gains
  | setEarSpeaker enable => exact safe_setEarSpeaker hw R fuel enable
  | setSpeed percent => exact safe_setSpeed hw R fuel percent
  | setADMixer gain => exact safe_setADMixer hw R fuel gain
  | setPCMMixer volume => exact safe_setPCMMixer hw R fuel volume
  | writeData data len => exact safe_writeData hw data len
  | readData buffer len => exact safe_ignore _ (safe_readData hw buffer len)
  | loadPlugin plugin len => exact safe_loadPlugin hw R fuel plugin len
  | activatePlugin startAddr => exact safe_activatePlugin hw R fuel startAddr
  | deactivatePlugin => exact safe_deactivatePlugin hw R fuel
  | loadApplication image len => exact safe_loadApplication hw R fuel image len
  | setClockFrequency freq => exact safe_setClockFrequency hw R fuel freq
  | setSampleRate rate => exact safe_setSampleRate hw R fuel rate
  | setGPIO pin state => exact safe_setGPIO hw R fuel pin state
  | getGPIO pin => exact safe_ignore _ ( safe_getGPIO hw R fuel pin)
  | readRegister reg => exact safe_ignore _ (safe_readRegister hw fuel reg)
  | writeRegister reg value => exact safe_writeRegister hw fuel reg value
  | getChipID => exact safe_ignore _ (safe_getChipID hw R fuel)

/-- C6: for every chip, hence every sequence of levels sampled on the ready
line, `waitForDreq` returns only with a HIGH sample as the last event of the
trace; and every public call, whether it returns or not, keeps the trace
gated: each event that drives command-select or data-select low is preceded
by a HIGH sample of the ready line with no select-line or SPI event in
between. -/
theorem ready_gating :
    (∀ (n : Nat) (d : Dev σ), (waitForDreq hw n d).1 = Except.ok () →
      (waitForDreq hw n d).2.trace.getLast? = some (Event.digitalRead true)) ∧
    (∀ (call : Call) (d : Dev σ), Gated d.trace → Gated (exec hw R fuel call d).2.trace) := by
  constructor
  · intro n d hok
    have hrec : ∀ (k : Nat) (e : Dev σ), (waitForDreq hw k e).1 = Except.ok () →
        (waitForDreq hw k e).2.trace.getLast? = some (Event.digitalRead true) := by
      intro k
      induction k with
      | zero =>
        intro e h0
        simp [waitForDreq, fault] at h0
      | succ k ih =>
        intro e
        cases hr : (hw.read e.chip).1 with
        | true =>
          simp only [waitForDreq, bind_apply, digitalRead_apply, hr, pure_apply, if_false,
            Bool.true_eq_false]
          intro _
          exact List.getLast?_concat _
        | false =>
          simp only [waitForDreq, bind_apply, digitalRead_apply, hr, delayMicroseconds_apply,
            if_true]
          exact ih _
    exact hrec n d hok
  · intro call d h
    exact safe_exec hw R fuel call d h

theorem ready_gating_witness :
    (waitForDreq scheduleChip 3 (Dev.init [false, false])).2.trace.getLast? =
      some (Event.digitalRead true) ∧
    Gated (exec scheduleChip datasheetRegs 3 (Call.writeRegister 0x0B 0x2828)
      (Dev.init [false, false])).2.trace :=
  ⟨(ready_gating scheduleChip datasheetRegs 3).1 3 (Dev.init [false, false]) rfl,
    (ready_gating scheduleChip datasheetRegs 3).2 (Call.writeRegister 0x0B 0x2828)
      (Dev.init [false, false]) rfl⟩

end Gating

end VS1063
